import Mathlib

/-!
Verification development for the M-Language core (MVM): a shallow embedding of
the varint/zigzag codec, the static validator, the structured-loop lowering
pass and the bytecode interpreter of `src/m_vm.c` and `src/validator.c`,
together with theorems settling the specification claims.

Programs are byte sequences, modelled as `List Nat` whose entries are bytes
(reads apply `% 256`, mirroring the C `uint8_t` buffer type).  Machine
integers are modelled as `Nat`/`Int` with explicit two's-complement wrapping
(`% 2^32`, `% 2^64`) at the points where the C code can overflow.
-/

set_option maxHeartbeats 1000000
set_option maxRecDepth 8000

/-! ## Two's-complement helpers -/

/-- Interpretation of a `uint32_t` bit pattern as a C `int32_t` (the cast in
`m_vm_decode_zigzag`). -/
def i32ofU32 (u : Nat) : Int :=
  if u % 2 ^ 32 < 2 ^ 31 then ((u % 2 ^ 32 : Nat) : Int)
  else ((u % 2 ^ 32 : Nat) : Int) - 2 ^ 32

/-- Bit pattern (as `Nat`) of an `int32_t` value. -/
def u32ofI32 (k : Int) : Nat := (k % 2 ^ 32).toNat

/-- Interpretation of a `uint64_t` bit pattern as a C `int64_t`. -/
def i64ofU64 (u : Nat) : Int :=
  if u % 2 ^ 64 < 2 ^ 63 then ((u % 2 ^ 64 : Nat) : Int)
  else ((u % 2 ^ 64 : Nat) : Int) - 2 ^ 64

/-- Bit pattern (as `Nat`) of an `int64_t` value. -/
def u64ofI64 (k : Int) : Nat := (k % 2 ^ 64).toNat

/-- Two's-complement wrap-around of `int64_t` arithmetic. -/
def wrap64 (k : Int) : Int := i64ofU64 (u64ofI64 k)

/-! ## Varint codec (`m_vm.c` lines 19–125)

The two C decoders `m_vm_decode_uvarint` (32-bit) and `m_vm_decode_uvarint64`
(64-bit) have identical control flow and differ only in the target width, so
the loop is parameterised by the width `w`.  The loop is fuelled; each C
iteration consumes one byte and requires `p < len`, so fuel `len + 1` is
always sufficient, and fuel exhaustion coincides with the loop exiting via
`p ≥ len` (reported as `none`, like the C `!terminated` failure). -/

def dec_uvarint_loop (w : Nat) (code : List Nat) (len : Nat) :
    Nat → Nat → Nat → Nat → Option (Nat × Nat)
  | 0, _, _, _ => none
  | fuel + 1, p, res, shift =>
    if p < len then
      if code.getD p 0 % 256 < 128 then
        some ((res ||| ((code.getD p 0 % 256 % 128) <<< shift)) % 2 ^ w, p + 1)
      else if shift + 7 ≥ w then none
      else dec_uvarint_loop w code len fuel (p + 1)
        ((res ||| ((code.getD p 0 % 256 % 128) <<< shift)) % 2 ^ w) (shift + 7)
    else none

/-- C `m_vm_decode_uvarint`: LEB128 decode of a `uint32_t` starting at `pc`;
returns the decoded value and the position just past the varint. -/
def m_vm_decode_uvarint (code : List Nat) (pc : Nat) : Option (Nat × Nat) :=
  dec_uvarint_loop 32 code code.length (code.length + 1) pc 0 0

/-- C `m_vm_decode_uvarint64`: LEB128 decode of a `uint64_t`. -/
def m_vm_decode_uvarint64 (code : List Nat) (pc : Nat) : Option (Nat × Nat) :=
  dec_uvarint_loop 64 code code.length (code.length + 1) pc 0 0

/-- The iteration of the C encoders, fuelled structurally (the value shrinks
by a factor of 128 each round, so `n` rounds always suffice; see
`m_vm_encode_uvarint_unfold` for the C recursion equation). -/
def enc_uvarint_go : Nat → Nat → List Nat
  | 0, n => [n]
  | fuel + 1, n =>
    if n ≤ 127 then [n] else (n % 128 + 128) :: enc_uvarint_go fuel (n / 128)

/-- C `m_vm_encode_uvarint`: minimal LEB128 encoding of a `uint32_t`. -/
def m_vm_encode_uvarint (n : Nat) : List Nat := enc_uvarint_go n n

/-- C `m_vm_encode_uvarint64`: minimal LEB128 encoding of a `uint64_t`
(the C body is identical to the 32-bit encoder's). -/
def m_vm_encode_uvarint64 (n : Nat) : List Nat := enc_uvarint_go n n

/-- C `m_vm_decode_zigzag`: `(int32_t)((n >> 1) ^ -(int32_t)(n & 1))`,
computed on `uint32_t` bit patterns. -/
def m_vm_decode_zigzag (n : Nat) : Int :=
  i32ofU32 (((n % 2 ^ 32) >>> 1) ^^^ (if n % 2 = 1 then 2 ^ 32 - 1 else 0))

/-- C `m_vm_encode_zigzag`: `(uint32_t)((n << 1) ^ (n >> 31))` with the
shift wrapping in two's complement. -/
def m_vm_encode_zigzag (k : Int) : Nat :=
  (2 * u32ofI32 k) % 2 ^ 32 ^^^ (if k < 0 then 2 ^ 32 - 1 else 0)

/-- C `m_vm_decode_zigzag64`. -/
def m_vm_decode_zigzag64 (n : Nat) : Int :=
  i64ofU64 (((n % 2 ^ 64) >>> 1) ^^^ (if n % 2 = 1 then 2 ^ 64 - 1 else 0))

/-- C `m_vm_encode_zigzag64`. -/
def m_vm_encode_zigzag64 (k : Int) : Nat :=
  (2 * u64ofI64 k) % 2 ^ 64 ^^^ (if k < 0 then 2 ^ 64 - 1 else 0)

/-- C `m_vm_decode_svarint`: unsigned varint decode followed by 32-bit
zigzag decode. -/
def m_vm_decode_svarint (code : List Nat) (pc : Nat) : Option (Int × Nat) :=
  match m_vm_decode_uvarint code pc with
  | some (u, p) => some (m_vm_decode_zigzag u, p)
  | none => none

/-! ## Codec lemmas -/

def M_B : Nat := 10
def M_E : Nat := 11
def M_IF : Nat := 12
def M_WH : Nat := 13
def M_FR : Nat := 14
def M_FN : Nat := 15
def M_RT : Nat := 16
def M_CL : Nat := 17
def M_PH : Nat := 18
def M_LIT : Nat := 30
def M_V : Nat := 31
def M_LET : Nat := 32
def M_SET : Nat := 33
def M_LT : Nat := 40
def M_GT : Nat := 41
def M_LE : Nat := 42
def M_GE : Nat := 43
def M_EQ : Nat := 44
def M_ADD : Nat := 50
def M_SUB : Nat := 51
def M_MUL : Nat := 52
def M_DIV : Nat := 53
def M_AND : Nat := 54
def M_OR : Nat := 55
def M_XOR : Nat := 56
def M_SHL : Nat := 57
def M_SHR : Nat := 58
def M_LEN : Nat := 60
def M_GET : Nat := 61
def M_PUT : Nat := 62
def M_SWP : Nat := 63
def M_DUP : Nat := 64
def M_DRP : Nat := 65
def M_ROT : Nat := 66
def M_GET_ALIAS : Nat := 67
def M_PUT_ALIAS : Nat := 68
def M_SWP_ALIAS : Nat := 69
def M_IOW : Nat := 70
def M_IOR : Nat := 71
def M_GTWAY : Nat := 80
def M_WAIT : Nat := 81
def M_HALT : Nat := 82
def M_TRACE : Nat := 83
def M_GC : Nat := 84
def M_BP : Nat := 85
def M_STEP : Nat := 86
def M_JMP : Nat := 100
def M_JZ : Nat := 101
def M_JNZ : Nat := 102
def M_MOD : Nat := 110
def M_NEG : Nat := 111
def M_NOT : Nat := 112
def M_NEQ : Nat := 113
def M_NEWARR : Nat := 120
def M_IDX : Nat := 121
def M_STO : Nat := 122
def M_DO : Nat := 140
def M_DWHL : Nat := 141
def M_WHIL : Nat := 142
def M_ALLOC : Nat := 200
def M_FREE : Nat := 201

/-- VM configuration constants from `include/m_vm.h`. -/
def STACK_SIZE : Nat := 256
def RET_STACK_SIZE : Nat := 32
def LOCALS_SIZE : Nat := 64
def GLOBALS_SIZE : Nat := 128
def MAX_STEPS : Nat := 1000000
def MAX_TRACE : Nat := 1024
def CALL_DEPTH_MAX : Nat := 32

/-- Fault codes, in the order of the C `M_Fault` enum. -/
inductive M_Fault where
  | NONE
  | STACK_OVERFLOW
  | STACK_UNDERFLOW
  | RET_STACK_OVERFLOW
  | RET_STACK_UNDERFLOW
  | LOCALS_OOB
  | GLOBALS_OOB
  | PC_OOB
  | DIV_BY_ZERO
  | MOD_BY_ZERO
  | UNKNOWN_OP
  | STEP_LIMIT
  | GAS_EXHAUSTED
  | BAD_ENCODING
  | UNAUTHORIZED
  | TYPE_MISMATCH
  | INDEX_OOB
  | BAD_ARG
  | OOM
  | ASSERT_FAILED
  | BREAKPOINT
  | DEBUG_STEP
  | CALL_DEPTH_LIMIT
deriving DecidableEq, Repr

/-! ## Static validator (`validator.c`, revision 1, lines 1–647) -/

/-- Result record of the validator (`M_ValidatorResult`). -/
structure M_ValidatorResult where
  valid : Bool
  fault_code : M_Fault
  pc : Int
  msg : String
deriving DecidableEq, Repr

/-- C `set_result`. -/
def set_result (valid : Bool) (fault_code : M_Fault) (pc : Int) (msg : String) :
    M_ValidatorResult :=
  ⟨valid, fault_code, pc, msg⟩

/-- C `m_validator_result_init`. -/
def m_validator_result_init : M_ValidatorResult := set_result true M_Fault.NONE 0 ""

/-- C `is_valid_opcode`. -/
def is_valid_opcode (op : Nat) : Bool := op ≤ 255

/-- Validator token (`ValTok`): opcode, its byte range, decoded operands and a
mask recording which operand fields are present (bit0:u32, bit1:u32_b,
bit2:u64, bit3:s32). -/
structure ValTok where
  op : Nat
  start : Nat
  stop : Nat
  u64 : Nat
  u32 : Nat
  u32_b : Nat
  s32 : Int
  mask : Nat
deriving DecidableEq, Repr

def vtDefault : ValTok := ⟨0, 0, 0, 0, 0, 0, 0, 0⟩

/-- C `read_valtok`: decode one token (opcode plus operands) starting at `pc`;
returns the token and the position after it. -/
def read_valtok (code : List Nat) (pc : Nat) : Option (ValTok × Nat) :=
  match m_vm_decode_uvarint code pc with
  | none => none
  | some (op, p1) =>
    if op = M_LIT then
      match m_vm_decode_uvarint64 code p1 with
      | none => none
      | some (v, p2) => some (⟨op, pc, p2, v, 0, 0, 0, 0x4⟩, p2)
    else if op = M_V ∨ op = M_LET ∨ op = M_SET ∨ op = M_GTWAY ∨ op = M_WAIT ∨
        op = M_IOW ∨ op = M_IOR ∨ op = M_TRACE ∨ op = M_BP then
      match m_vm_decode_uvarint code p1 with
      | none => none
      | some (v, p2) => some (⟨op, pc, p2, 0, v, 0, 0, 0x1⟩, p2)
    else if op = M_CL then
      match m_vm_decode_uvarint code p1 with
      | none => none
      | some (f, p2) =>
        match m_vm_decode_uvarint code p2 with
        | none => none
        | some (a, p3) => some (⟨op, pc, p3, 0, f, a, 0, 0x3⟩, p3)
    else if op = M_JZ ∨ op = M_JNZ ∨ op = M_JMP ∨ op = M_DWHL ∨ op = M_WHIL then
      match m_vm_decode_svarint code p1 with
      | none => none
      | some (off, p2) => some (⟨op, pc, p2, 0, 0, 0, off, 0x8⟩, p2)
    else
      some (⟨op, pc, p1, 0, 0, 0, 0, 0⟩, p1)

/-- C `build_val_tokens`: tokenize the whole program.  Fuelled; every token
consumes at least one byte, so fuel `len + 1` suffices. -/
def build_val_tokens_go (code : List Nat) : Nat → Nat → List ValTok → Option (List ValTok)
  | 0, _, _ => none
  | fuel + 1, pc, acc =>
    if pc < code.length then
      match read_valtok code pc with
      | none => none
      | some (t, pc') => build_val_tokens_go code fuel pc' (acc ++ [t])
    else some acc

def build_val_tokens (code : List Nat) : Option (List ValTok) :=
  build_val_tokens_go code (code.length + 1) 0 []

/-- C `find_matching_e` (validator): scan token list for the `E` matching the
`B` at `b_idx` (depth counter over opcode tokens); `-1` when not found. -/
def find_matching_e_go (toks : List ValTok) (count : Nat) :
    Nat → Nat → Int → Int
  | 0, _, _ => -1
  | rem + 1, i, depth =>
    if i < count then
      let op := (toks.getD i vtDefault).op
      let d2 := if op = M_B then depth + 1 else if op = M_E then depth - 1 else depth
      if d2 = 0 then (i : Int)
      else find_matching_e_go toks count rem (i + 1) d2
    else -1

def find_matching_e (toks : List ValTok) (count : Nat) (b_idx : Nat) : Int :=
  find_matching_e_go toks count (count + 1 - b_idx) b_idx 0

/-- Capability bitmap of the validator (`uint8_t caps[32]`), modelled as its
characteristic function on device ids. -/
def VCaps : Type := Nat → Bool

def vcaps_empty : VCaps := fun _ => false

/-- C `caps_and` (validator): pointwise AND of two bitmaps. -/
def vcaps_and (a b : VCaps) : VCaps := fun i => a i && b i

/-- C `caps_has` (validator). -/
def vcaps_has (c : VCaps) (id : Nat) : Bool := if id > 255 then false else c id

/-- C `caps_add` (validator). -/
def vcaps_add (c : VCaps) (id : Nat) : VCaps :=
  if id > 255 then c else Function.update c id true

/-- C `validate_range`: symbolic stack-height and capability walk over the
token range `[i, end_)`.  The C recursion (one recursive call per `IF` arm or
loop body) terminates because every recursive call strictly advances the start
index; here it is fuelled, and `m_validate` supplies fuel that dominates the
recursion depth.  On success returns the final height and bitmap; on failure
the C `result` record. -/
def validate_range_go (toks : List ValTok) (count : Nat) :
    Nat → Nat → Nat → Int → VCaps → Except M_ValidatorResult (Int × VCaps)
  | 0, _, _, _, _ =>
    Except.error (set_result false M_Fault.BAD_ENCODING 0 "validator fuel exhausted")
  | fuel + 1, i, end_, sp, caps =>
    if i < end_ then
      let t := toks.getD i vtDefault
      let op := t.op
      if op = M_IF then
        if sp < 1 then
          Except.error (set_result false M_Fault.STACK_UNDERFLOW t.start "Stack underflow at IF")
        else
          let sp := sp - 1
          if i + 1 ≥ count ∨ (toks.getD (i + 1) vtDefault).op ≠ M_B then
            Except.error (set_result false M_Fault.BAD_ENCODING t.start "IF missing B")
          else
            let then_e := find_matching_e toks count (i + 1)
            if then_e < 0 then
              Except.error (set_result false M_Fault.BAD_ENCODING t.start "IF missing then E")
            else if then_e.toNat + 1 ≥ count ∨
                (toks.getD (then_e.toNat + 1) vtDefault).op ≠ M_B then
              Except.error (set_result false M_Fault.BAD_ENCODING t.start "IF missing else B")
            else
              let else_e := find_matching_e toks count (then_e.toNat + 1)
              if else_e < 0 then
                Except.error (set_result false M_Fault.BAD_ENCODING t.start "IF missing else E")
              else
                match validate_range_go toks count fuel (i + 2) then_e.toNat sp caps with
                | Except.error r => Except.error r
                | Except.ok (sp_then, caps_then) =>
                  match validate_range_go toks count fuel (then_e.toNat + 2) else_e.toNat sp caps with
                  | Except.error r => Except.error r
                  | Except.ok (sp_else, caps_else) =>
                    if sp_then ≠ sp_else then
                      Except.error (set_result false M_Fault.BAD_ARG t.start "IF branch stack mismatch")
                    else
                      validate_range_go toks count fuel (else_e.toNat + 1) end_ sp_then
                        (vcaps_and caps_then caps_else)
      else if op = M_WH ∨ op = M_FR then
        if sp < 1 then
          Except.error (set_result false M_Fault.STACK_UNDERFLOW t.start "Stack underflow at WH/FR")
        else
          let sp := sp - 1
          if i + 1 ≥ count ∨ (toks.getD (i + 1) vtDefault).op ≠ M_B then
            Except.error (set_result false M_Fault.BAD_ENCODING t.start "WH/FR missing B")
          else
            let body_e := find_matching_e toks count (i + 1)
            if body_e < 0 then
              Except.error (set_result false M_Fault.BAD_ENCODING t.start "WH/FR missing E")
            else
              match validate_range_go toks count fuel (i + 2) body_e.toNat sp caps with
              | Except.error r => Except.error r
              | Except.ok (sp_body, _caps_body) =>
                if sp_body ≠ sp then
                  Except.error (set_result false M_Fault.BAD_ARG t.start "Loop body stack effect != 0")
                else
                  validate_range_go toks count fuel (body_e.toNat + 1) end_ sp caps
      else if op = M_JZ ∨ op = M_JNZ ∨ op = M_JMP then
        let target : Int := ((i : Int) + 1) + t.s32
        if target < 0 ∨ target ≥ (count : Int) then
          Except.error (set_result false M_Fault.PC_OOB t.start "Jump target out of bounds")
        else if op ≠ M_JMP then
          if sp < 1 then
            Except.error (set_result false M_Fault.STACK_UNDERFLOW t.start "Stack underflow at JZ/JNZ")
          else validate_range_go toks count fuel (i + 1) end_ (sp - 1) caps
        else validate_range_go toks count fuel (i + 1) end_ sp caps
      else if op = M_LIT ∨ op = M_V then
        validate_range_go toks count fuel (i + 1) end_ (sp + 1) caps
      else if op = M_LEN ∨ op = M_NEG ∨ op = M_NOT then
        if sp < 0 then
          Except.error (set_result false M_Fault.STACK_UNDERFLOW t.start "Stack underflow")
        else validate_range_go toks count fuel (i + 1) end_ sp caps
      else if op = M_DUP then
        if sp < 0 then
          Except.error (set_result false M_Fault.STACK_UNDERFLOW t.start "Stack underflow at DUP")
        else validate_range_go toks count fuel (i + 1) end_ (sp + 1) caps
      else if op = M_DRP then
        if sp < 0 then
          Except.error (set_result false M_Fault.STACK_UNDERFLOW t.start "Stack underflow at DRP")
        else validate_range_go toks count fuel (i + 1) end_ (sp - 1) caps
      else if op = M_SWP then
        if sp < 1 then
          Except.error (set_result false M_Fault.STACK_UNDERFLOW t.start "Stack underflow at SWP")
        else validate_range_go toks count fuel (i + 1) end_ sp caps
      else if op = M_ROT then
        if sp < 2 then
          Except.error (set_result false M_Fault.STACK_UNDERFLOW t.start "Stack underflow at ROT")
        else validate_range_go toks count fuel (i + 1) end_ sp caps
      else if op = M_GET ∨ op = M_IDX then
        if sp < 1 then
          Except.error (set_result false M_Fault.STACK_UNDERFLOW t.start "Stack underflow at GET/IDX")
        else validate_range_go toks count fuel (i + 1) end_ (sp - 1) caps
      else if op = M_PUT ∨ op = M_STO then
        if sp < 2 then
          Except.error (set_result false M_Fault.STACK_UNDERFLOW t.start "Stack underflow at PUT/STO")
        else validate_range_go toks count fuel (i + 1) end_ (sp - 2) caps
      else if op = M_NEWARR ∨ op = M_ALLOC then
        if sp < 0 then
          Except.error (set_result false M_Fault.STACK_UNDERFLOW t.start "Stack underflow at NEWARR/ALLOC")
        else validate_range_go toks count fuel (i + 1) end_ sp caps
      else if op = M_FREE ∨ op = M_LET ∨ op = M_SET then
        if sp < 0 then
          Except.error (set_result false M_Fault.STACK_UNDERFLOW t.start "Stack underflow at op")
        else validate_range_go toks count fuel (i + 1) end_ (sp - 1) caps
      else if op = M_ADD ∨ op = M_SUB ∨ op = M_MUL ∨ op = M_DIV ∨
          op = M_AND ∨ op = M_OR ∨ op = M_XOR ∨ op = M_SHL ∨ op = M_SHR ∨
          op = M_LT ∨ op = M_GT ∨ op = M_LE ∨ op = M_GE ∨ op = M_EQ ∨
          op = M_NEQ ∨ op = M_MOD then
        if sp < 1 then
          Except.error (set_result false M_Fault.STACK_UNDERFLOW t.start "Stack underflow at binary op")
        else validate_range_go toks count fuel (i + 1) end_ (sp - 1) caps
      else if op = M_CL then
        if sp < (t.u32_b : Int) then
          Except.error (set_result false M_Fault.STACK_UNDERFLOW t.start "Stack underflow at CL")
        else validate_range_go toks count fuel (i + 1) end_ (sp - (t.u32_b : Int) + 1) caps
      else if op = M_RT then
        if sp < 0 then
          Except.error (set_result false M_Fault.STACK_UNDERFLOW t.start "Stack underflow at RT")
        else validate_range_go toks count fuel (i + 1) end_ (sp - 1) caps
      else if op = M_GTWAY then
        if t.u32 > 255 then
          Except.error (set_result false M_Fault.BAD_ARG t.start "GTWAY cap_id out of range")
        else validate_range_go toks count fuel (i + 1) end_ sp (vcaps_add caps t.u32)
      else if op = M_IOW then
        if ¬vcaps_has caps t.u32 then
          Except.error (set_result false M_Fault.UNAUTHORIZED t.start "IOW without capability")
        else if sp < 0 then
          Except.error (set_result false M_Fault.STACK_UNDERFLOW t.start "Stack underflow at IOW")
        else validate_range_go toks count fuel (i + 1) end_ (sp - 1) caps
      else if op = M_IOR then
        if ¬vcaps_has caps t.u32 then
          Except.error (set_result false M_Fault.UNAUTHORIZED t.start "IOR without capability")
        else validate_range_go toks count fuel (i + 1) end_ (sp + 1) caps
      else
        validate_range_go toks count fuel (i + 1) end_ sp caps
    else Except.ok (sp, caps)

/-- Enqueue helper of C `validate_reachability` (the `ENQUEUE` macro):
mark and append when the index is in range and not yet reachable. -/
def reach_enqueue (count : Nat) (st : List Bool × List Nat) (idx : Int) :
    List Bool × List Nat :=
  if 0 ≤ idx ∧ idx < (count : Int) ∧ ¬(st.1.getD idx.toNat false) then
    (st.1.set idx.toNat true, st.2 ++ [idx.toNat])
  else st

/-- BFS worklist loop of C `validate_reachability`.  Each popped index was
enqueued exactly once (the mark guards re-enqueueing), so at most `count`
pops occur and fuel `count + 1` suffices. -/
def validate_reachability_go (toks : List ValTok) (count : Nat) :
    Nat → List Bool → List Nat → Except M_ValidatorResult (List Bool)
  | 0, reachable, _ => Except.ok reachable
  | fuel + 1, reachable, queue =>
    match queue with
    | [] => Except.ok reachable
    | i :: rest =>
      let t := toks.getD i vtDefault
      let op := t.op
      if op = M_JMP then
        let target : Int := ((i : Int) + 1) + t.s32
        if target < 0 ∨ target ≥ (count : Int) then
          Except.error (set_result false M_Fault.PC_OOB t.start "Jump target out of bounds")
        else
          let st := reach_enqueue count (reachable, rest) target
          validate_reachability_go toks count fuel st.1 st.2
      else if op = M_JZ ∨ op = M_JNZ ∨ op = M_DWHL ∨ op = M_WHIL then
        let target : Int := ((i : Int) + 1) + t.s32
        if target < 0 ∨ target ≥ (count : Int) then
          Except.error (set_result false M_Fault.PC_OOB t.start "Jump target out of bounds")
        else
          let st := reach_enqueue count (reachable, rest) target
          let st2 := reach_enqueue count st ((i : Int) + 1)
          validate_reachability_go toks count fuel st2.1 st2.2
      else if op = M_HALT ∨ op = M_RT then
        validate_reachability_go toks count fuel reachable rest
      else
        let st := reach_enqueue count (reachable, rest) ((i : Int) + 1)
        validate_reachability_go toks count fuel st.1 st.2

/-- First index not marked reachable (the final scan of
C `validate_reachability`), as an error; `none` when all are reachable. -/
def reach_first_unreachable (toks : List ValTok) (reachable : List Bool) :
    Nat → Nat → Option M_ValidatorResult
  | 0, _ => none
  | rem + 1, i =>
    if ¬(reachable.getD i false) then
      some (set_result false M_Fault.BAD_ARG (toks.getD i vtDefault).start "Unreachable code")
    else reach_first_unreachable toks reachable rem (i + 1)

/-- C `validate_reachability`. -/
def validate_reachability (toks : List ValTok) (count : Nat) :
    Except M_ValidatorResult Unit :=
  if count = 0 then Except.ok ()
  else
    let reachable0 := (List.replicate count false).set 0 true
    match validate_reachability_go toks count (count + 1) reachable0 [0] with
    | Except.error r => Except.error r
    | Except.ok reachable =>
      match reach_first_unreachable toks reachable count 0 with
      | some r => Except.error r
      | none => Except.ok ()

/-- C `m_validate_opcodes`: walk the byte stream decoding successive varints
(without skipping operands, as in the source) and require each value ≤ 255. -/
def m_validate_opcodes_go (code : List Nat) : Nat → Nat → Except M_ValidatorResult Unit
  | 0, _ => Except.ok ()
  | fuel + 1, pc =>
    if pc < code.length then
      match m_vm_decode_uvarint code pc with
      | none => Except.error (set_result false M_Fault.BAD_ENCODING pc "Invalid opcode encoding")
      | some (op, next) =>
        if ¬is_valid_opcode op then
          Except.error (set_result false M_Fault.UNKNOWN_OP pc "Unknown opcode")
        else m_validate_opcodes_go code fuel next
    else Except.ok ()

def m_validate_opcodes (code : List Nat) : Except M_ValidatorResult Unit :=
  m_validate_opcodes_go code (code.length + 1) 0

/-- C `m_validate_varints`: every successive varint decodes. -/
def m_validate_varints_go (code : List Nat) : Nat → Nat → Except M_ValidatorResult Unit
  | 0, _ => Except.ok ()
  | fuel + 1, pc =>
    if pc < code.length then
      match m_vm_decode_uvarint code pc with
      | none => Except.error (set_result false M_Fault.BAD_ENCODING pc "Invalid varint encoding")
      | some (_, next) => m_validate_varints_go code fuel next
    else Except.ok ()

def m_validate_varints (code : List Nat) : Except M_ValidatorResult Unit :=
  m_validate_varints_go code (code.length + 1) 0

/-- C `m_validate_blocks`: depth-count the values 10 (`B`) and 11 (`E`) over
the flat varint stream.  As in the source, operand varints are NOT skipped:
every decoded varint takes part in the depth count. -/
def m_validate_blocks_go (code : List Nat) :
    Nat → Nat → Int → Except M_ValidatorResult Int
  | 0, _, depth => Except.ok depth
  | fuel + 1, pc, depth =>
    if pc < code.length then
      match m_vm_decode_uvarint code pc with
      | none => Except.error (set_result false M_Fault.BAD_ENCODING pc "Invalid varint in block check")
      | some (op, next) =>
        if op = M_B then m_validate_blocks_go code fuel next (depth + 1)
        else if op = M_E then
          if depth ≤ 0 then
            Except.error (set_result false M_Fault.PC_OOB pc "Unmatched E")
          else m_validate_blocks_go code fuel next (depth - 1)
        else m_validate_blocks_go code fuel next depth
    else Except.ok depth

def m_validate_blocks (code : List Nat) : Except M_ValidatorResult Unit :=
  match m_validate_blocks_go code (code.length + 1) 0 0 with
  | Except.error r => Except.error r
  | Except.ok depth =>
    if depth ≠ 0 then
      Except.error (set_result false M_Fault.PC_OOB code.length "Unmatched B/E")
    else Except.ok ()

/-- C `m_validate_locals`: flat varint walk; at each varint equal to `V`,
`LET` or `SET` the following varint is decoded as the index and bounded. -/
def m_validate_locals_go (code : List Nat) : Nat → Nat → Except M_ValidatorResult Unit
  | 0, _ => Except.ok ()
  | fuel + 1, pc =>
    if pc < code.length then
      match m_vm_decode_uvarint code pc with
      | none => Except.error (set_result false M_Fault.BAD_ENCODING pc "Invalid varint in locals check")
      | some (op, next) =>
        if op = M_V ∨ op = M_LET ∨ op = M_SET then
          match m_vm_decode_uvarint code next with
          | none =>
            Except.error (set_result false M_Fault.BAD_ENCODING pc "Invalid local index encoding")
          | some (idx, _) =>
            if op = M_SET then
              if idx ≥ GLOBALS_SIZE then
                Except.error (set_result false M_Fault.GLOBALS_OOB pc "Global index out of bounds")
              else m_validate_locals_go code fuel next
            else
              if idx ≥ LOCALS_SIZE then
                Except.error (set_result false M_Fault.LOCALS_OOB pc "Local index out of bounds")
              else m_validate_locals_go code fuel next
        else m_validate_locals_go code fuel next
    else Except.ok ()

def m_validate_locals (code : List Nat) : Except M_ValidatorResult Unit :=
  m_validate_locals_go code (code.length + 1) 0

/-- C `m_validate`: all checks in source order. -/
def m_validate (code : List Nat) : M_ValidatorResult :=
  if code.length = 0 then set_result false M_Fault.BAD_ENCODING 0 "Invalid code or length"
  else
    match m_validate_opcodes code with
    | Except.error r => r
    | Except.ok () =>
    match m_validate_varints code with
    | Except.error r => r
    | Except.ok () =>
    match m_validate_blocks code with
    | Except.error r => r
    | Except.ok () =>
    match m_validate_locals code with
    | Except.error r => r
    | Except.ok () =>
    match build_val_tokens code with
    | none => set_result false M_Fault.BAD_ENCODING 0 "Tokenization failed"
    | some toks =>
      let count := toks.length
      match validate_range_go toks count ((count + 1) * (count + 1)) 0 count 0 vcaps_empty with
      | Except.error r => r
      | Except.ok _ =>
        match validate_reachability toks count with
        | Except.error r => r
        | Except.ok () => m_validator_result_init

/-- Scan loop of C `m_validate_core_only`: first token with opcode above 99. -/
def core_only_scan (toks : List ValTok) : Option M_ValidatorResult :=
  match toks.find? (fun t => t.op > 99) with
  | some t =>
    some (set_result false M_Fault.UNKNOWN_OP t.start "Non-core opcode in core-only validation")
  | none => none

/-- C `m_validate_core_only`. -/
def m_validate_core_only (code : List Nat) : M_ValidatorResult :=
  let r := m_validate code
  if ¬r.valid then r
  else
    match build_val_tokens code with
    | none => set_result false M_Fault.BAD_ENCODING 0 "Tokenization failed"
    | some toks =>
      match core_only_scan toks with
      | some r2 => r2
      | none => r

/-! ## Claims C4 and C8: validator block matching and core-only policy -/

/-- Flat varint stream of a program: the successive varints decoded from the
byte buffer, operands included (this is the stream the early validator passes
actually walk). -/
def decode_varint_stream (code : List Nat) : Nat → Nat → Option (List Nat)
  | 0, _ => some []
  | fuel + 1, pc =>
    if pc < code.length then
      match m_vm_decode_uvarint code pc with
      | none => none
      | some (v, next) =>
        match decode_varint_stream code fuel next with
        | none => none
        | some vs => some (v :: vs)
    else some []

/-- Balancedness of the values 10 (`B`) and 11 (`E`) in a varint stream:
depth never goes negative and ends at zero. -/
def blocks_balanced : List Nat → Int → Bool
  | [], depth => depth = 0
  | v :: vs, depth =>
    if v = 10 then blocks_balanced vs (depth + 1)
    else if v = 11 then
      if depth ≤ 0 then false else blocks_balanced vs (depth - 1)
    else blocks_balanced vs depth

/-- Specification of what `m_validate_blocks` decides, written from the
amended claim: the flat varint stream of the program decodes in full and its
10/11 values are balanced. -/
def m_validate_blocks_flat_spec (code : List Nat) : Bool :=
  match decode_varint_stream code (code.length + 1) 0 with
  | none => false
  | some vs => blocks_balanced vs 0

inductive MValue where
  | int (i : Int)
  | float (f : Int)
  | bool (b : Bool)
  | array (ptr : Nat)
  | str (ptr : Nat)
  | ref (ptr : Nat)
deriving DecidableEq, Repr

inductive HeapObj where
  | arr (len : Int) (cap : Int) (data : Nat → MValue)
  | buf (size : Int)

inductive IOEvent where
  | write (dev : Nat) (val : MValue)
  | read (dev : Nat) (val : MValue)
  | sleep_ev (ms : Int)
  | trace_ev (level : Nat) (last_pc : Int) (op : Nat) (sp : Int)
  | gc_trace

structure Host where
  io_write : Bool
  io_read : Option (Nat → MValue)
  sleep_ms : Bool
  trace : Bool

structure M_VM where
  code : List Nat
  code_len : Int
  pc : Int
  sp : Int
  stack : Nat → MValue
  rp : Int
  ret_stack : Nat → Int
  locals : Nat → MValue
  local_count : Int
  frame_sp : Int
  locals_frames : Nat → Nat → MValue
  globals : Nat → MValue
  caps : Nat → Bool
  running : Bool
  authorized : Bool
  fault : M_Fault
  last_pc : Int
  last_op : Nat
  last_op_index : Int
  steps : Nat
  step_limit : Nat
  gas : Nat
  gas_limit : Nat
  call_depth : Int
  call_depth_limit : Int
  stack_limit : Int
  single_step : Bool
  token_offsets : Option (List Int)
  token_count : Int
  byte_to_token : Option (List Int)
  heap : Nat → Option HeapObj
  alloc_list : List Nat
  next_ptr : Nat
  alloc_count : Nat
  gc_enabled : Bool
  gc_threshold : Int
  breakpoints : List (Int × Int × Bool)
  io_log : List IOEvent

/-- The `SET_FAULT` macro: record the fault and stop the run. -/
def SET_FAULT (v : M_VM) (c : M_Fault) : M_VM := { v with fault := c, running := false }

/-- The `PUSH` macro: `stack[++sp] = val`. -/
def vmPush (v : M_VM) (val : MValue) : M_VM :=
  { v with sp := v.sp + 1, stack := Function.update v.stack (v.sp + 1).toNat val }

/-- The `TOP` macro: `stack[sp]`. -/
def vmTop (v : M_VM) : MValue := v.stack v.sp.toNat

/-- The `POP` macro, as the popped value plus the decremented state. -/
def vmPopped (v : M_VM) : M_VM := { v with sp := v.sp - 1 }

/-- Capability helpers of `m_vm.c` (`caps_clear` / `caps_has` / `caps_add`),
on the 256-bit bitmap as a characteristic function. -/
def caps_clear : Nat → Bool := fun _ => false

def caps_has (v : M_VM) (id : Nat) : Bool := if id > 255 then false else v.caps id

def caps_add (v : M_VM) (id : Nat) : M_VM :=
  if id > 255 then v else { v with caps := Function.update v.caps id true }

/-- C `make_int`. -/
def make_int (i : Int) : MValue := MValue.int i

/-- C `make_bool`. -/
def make_bool (b : Bool) : MValue := MValue.bool b

/-- C `to_int` (float reads its surrogate; default arms return 0). -/
def to_int : MValue → Int
  | MValue.int i => i
  | MValue.float f => f
  | MValue.bool b => if b then 1 else 0
  | _ => 0

/-- C `to_bool`. -/
def to_bool : MValue → Bool
  | MValue.int i => i ≠ 0
  | MValue.float f => f ≠ 0
  | MValue.bool b => b
  | _ => false

/-- Reading the `u.i` union arm of a value (used by the trace recorder and
`m_vm_simulate`); only `Int` slots are read in defined executions, the other
arms are a deterministic rendering of the C type pun. -/
def val_u_i : MValue → Int
  | MValue.int i => i
  | MValue.float f => f
  | MValue.bool b => if b then 1 else 0
  | _ => 0

/-- 64-bit two's-complement bitwise helpers for `int64_t` operations. -/
def and64 (a b : Int) : Int := i64ofU64 (u64ofI64 a &&& u64ofI64 b)

def or64 (a b : Int) : Int := i64ofU64 (u64ofI64 a ||| u64ofI64 b)

def xor64 (a b : Int) : Int := i64ofU64 (u64ofI64 a ^^^ u64ofI64 b)

/-- Decode-and-ignore: the handlers that call `m_vm_decode_uvarint` without
checking the result leave `pc` unchanged on failure. -/
def skip_uvarint (code : List Nat) (pc : Int) : Int :=
  match m_vm_decode_uvarint code pc.toNat with
  | some (_, p) => (p : Int)
  | none => pc

/-- The shared block skipper of `h_if`/`h_wh`/`h_fr`/`h_fn`: decode successive
varints (operands are NOT skipped), counting depth on `B`/`E`, stopping with
the position of the closing token.  When a varint fails to decode the C loop
spins forever (the decode leaves `pc` unchanged); this is the `none` result.
Fuel `len + 1` dominates the loop, which otherwise advances every step. -/
def skip_block_scan (code : List Nat) (len : Nat) : Nat → Nat → Int → Option Nat
  | 0, pc, depth => if depth > 0 ∧ pc < len then none else some pc
  | fuel + 1, pc, depth =>
    if depth > 0 ∧ pc < len then
      match m_vm_decode_uvarint code pc with
      | some (t, next) =>
        let d2 := if t = M_B then depth + 1 else if t = M_E then depth - 1 else depth
        if d2 > 0 then skip_block_scan code len fuel next d2
        else some pc
      | none => none
    else some pc

/-! ## Opcode handlers (`m_vm.c` lines 859–2032), in source order -/

/-- C `h_dup`. -/
def h_dup (v : M_VM) : M_VM :=
  if v.sp + 1 < 1 then SET_FAULT v M_Fault.STACK_UNDERFLOW
  else if v.sp + 1 ≥ v.stack_limit ∨ v.sp + 1 ≥ (STACK_SIZE : Int) then
    SET_FAULT v M_Fault.STACK_OVERFLOW
  else vmPush v (vmTop v)

/-- C `h_drp`. -/
def h_drp (v : M_VM) : M_VM :=
  if v.sp + 1 < 1 then SET_FAULT v M_Fault.STACK_UNDERFLOW
  else vmPopped v

/-- C `h_swp`. -/
def h_swp (v : M_VM) : M_VM :=
  if v.sp + 1 < 2 then SET_FAULT v M_Fault.STACK_UNDERFLOW
  else
    let a := v.stack (v.sp - 1).toNat
    let b := v.stack v.sp.toNat
    { v with stack := Function.update (Function.update v.stack (v.sp - 1).toNat b) v.sp.toNat a }

/-- C `h_alloc` (size from the stack; the model's `malloc` always succeeds
and hands out fresh pointer ids). -/
def h_alloc (v : M_VM) : M_VM :=
  if v.sp + 1 < 1 then SET_FAULT v M_Fault.STACK_UNDERFLOW
  else
    let size := to_int (vmTop v)
    let v := vmPopped v
    if size ≤ 0 then SET_FAULT v M_Fault.BAD_ARG
    else if size > 1000000 then SET_FAULT v M_Fault.BAD_ARG
    else
      let ptr := v.next_ptr
      let v := { v with
        heap := Function.update v.heap ptr (some (HeapObj.buf size)),
        alloc_list := ptr :: v.alloc_list,
        next_ptr := v.next_ptr + 1 }
      vmPush v (MValue.ref ptr)

/-- C `h_free`. -/
def h_free (v : M_VM) : M_VM :=
  if v.sp + 1 < 1 then SET_FAULT v M_Fault.STACK_UNDERFLOW
  else
    let rv := vmTop v
    let v := vmPopped v
    match rv with
    | MValue.ref ptr =>
      { v with alloc_list := v.alloc_list.erase ptr,
               heap := Function.update v.heap ptr none }
    | _ => SET_FAULT v M_Fault.TYPE_MISMATCH

/-- Pointer id of a value, for the GC mark phase (`gc_mark_value`'s REF and
ARRAY arms). -/
def gc_ptr_of : MValue → Option Nat
  | MValue.ref p => some p
  | MValue.array p => some p
  | _ => none

/-- Mark phase of C `gc_mark_value`, the depth-first recursion written as an
explicit worklist (array elements are prepended, preserving the C order).
`cap` is the C `marked_cap` bound; `none`-fuel exhaustion corresponds to the
divergent recursion on untracked cyclic arrays, unreachable from well-formed
states. -/
def gc_mark_go (v : M_VM) (cap : Nat) : Nat → List MValue → List Nat → List Nat
  | 0, _, marked => marked
  | _ + 1, [], marked => marked
  | fuel + 1, val :: rest, marked =>
    match gc_ptr_of val with
    | none => gc_mark_go v cap fuel rest marked
    | some ptr =>
      if marked.length ≥ cap ∨ marked.contains ptr then gc_mark_go v cap fuel rest marked
      else
        let marked2 := if v.alloc_list.contains ptr then marked ++ [ptr] else marked
        let elems :=
          match val, v.heap ptr with
          | MValue.array _, some (HeapObj.arr len _ data) =>
            (List.range len.toNat).map data
          | _, _ => []
        gc_mark_go v cap fuel (elems ++ rest) marked2

/-- Roots of C `gc_mark_all`: data stack, locals, saved frames, globals,
in that order. -/
def gc_roots (v : M_VM) : List MValue :=
  (List.range (v.sp + 1).toNat).map v.stack ++
  (List.range LOCALS_SIZE).map v.locals ++
  ((List.range (v.frame_sp + 1).toNat).map
    (fun f => (List.range LOCALS_SIZE).map (v.locals_frames f))).flatten ++
  (List.range GLOBALS_SIZE).map v.globals

/-- Total number of array elements reachable through the allocation list,
used to bound the mark worklist. -/
def gc_heap_elems (v : M_VM) : Nat :=
  (v.alloc_list.map (fun p =>
    match v.heap p with
    | some (HeapObj.arr len _ _) => len.toNat
    | _ => 0)).foldl (· + ·) 0

/-- C `m_vm_gc`: mark from the roots, then sweep the allocation list and
free (drop from the heap) every unmarked allocation; reset `alloc_count`;
emit the completion trace line when a trace callback is attached. -/
def m_vm_gc (host : Host) (v : M_VM) : M_VM :=
  let alloc_count := v.alloc_list.length
  if alloc_count = 0 then v
  else
    let fuel := (gc_roots v).length + (alloc_count + 1) * (gc_heap_elems v + 1) + 1
    let marked := gc_mark_go v alloc_count fuel (gc_roots v) []
    let v := { v with
      alloc_list := v.alloc_list.filter (fun p => marked.contains p),
      heap := fun p =>
        if v.alloc_list.contains p ∧ ¬marked.contains p then none else v.heap p,
      alloc_count := 0 }
    if host.trace then { v with io_log := v.io_log ++ [IOEvent.gc_trace] } else v

/-- C `h_gc`. -/
def h_gc (host : Host) (v : M_VM) : M_VM := m_vm_gc host v

/-- C `m_vm_set_breakpoint` on the (process-wide, here per-state) breakpoint
table: full table is a no-op; an entry at the same pc is re-armed; otherwise
append.  The table is modelled from the process-initial (empty) state. -/
def m_vm_set_breakpoint (v : M_VM) (pc : Int) (id : Int) : M_VM :=
  if v.breakpoints.length ≥ 16 then v
  else if v.breakpoints.any (fun b => b.1 = pc) then
    { v with breakpoints := v.breakpoints.map (fun b => if b.1 = pc then (pc, id, true) else b) }
  else { v with breakpoints := v.breakpoints ++ [(pc, id, true)] }

/-- C `h_bp`: decode the id and install a breakpoint at the opcode's pc; on
decode failure nothing happens (not even a fault). -/
def h_bp (v : M_VM) : M_VM :=
  let pc := v.pc
  match m_vm_decode_uvarint v.code v.pc.toNat with
  | some (id, next_pc) =>
    m_vm_set_breakpoint { v with pc := (next_pc : Int) } pc (i32ofU32 id)
  | none => v

/-- C `h_step`. -/
def h_step (v : M_VM) : M_VM := { v with single_step := true }

/-- C `h_rot`. -/
def h_rot (v : M_VM) : M_VM :=
  if v.sp + 1 < 3 then SET_FAULT v M_Fault.STACK_UNDERFLOW
  else
    let a := v.stack (v.sp - 2).toNat
    let b := v.stack (v.sp - 1).toNat
    let c := v.stack v.sp.toNat
    { v with stack :=
        Function.update (Function.update (Function.update v.stack
          (v.sp - 2).toNat b) (v.sp - 1).toNat c) v.sp.toNat a }

/-- C `h_lit`: one zigzag-i64 varint operand. -/
def h_lit (v : M_VM) : M_VM :=
  match m_vm_decode_uvarint64 v.code v.pc.toNat with
  | none => SET_FAULT v M_Fault.BAD_ENCODING
  | some (enc, p) =>
    if v.sp + 1 ≥ v.stack_limit ∨ v.sp + 1 ≥ (STACK_SIZE : Int) then
      SET_FAULT v M_Fault.STACK_OVERFLOW
    else vmPush { v with pc := (p : Int) } (make_int (m_vm_decode_zigzag64 enc))

/-- C `h_v`. -/
def h_v (v : M_VM) : M_VM :=
  match m_vm_decode_uvarint v.code v.pc.toNat with
  | none => SET_FAULT v M_Fault.BAD_ENCODING
  | some (idx, p) =>
    let v := { v with pc := (p : Int) }
    if v.sp + 1 ≥ v.stack_limit ∨ v.sp + 1 ≥ (STACK_SIZE : Int) then
      SET_FAULT v M_Fault.STACK_OVERFLOW
    else if idx ≥ LOCALS_SIZE then SET_FAULT v M_Fault.LOCALS_OOB
    else vmPush v (v.locals idx)

/-- C `h_let`. -/
def h_let (v : M_VM) : M_VM :=
  match m_vm_decode_uvarint v.code v.pc.toNat with
  | none => SET_FAULT v M_Fault.BAD_ENCODING
  | some (idx, p) =>
    if v.sp + 1 < 1 then SET_FAULT v M_Fault.STACK_UNDERFLOW
    else if idx ≥ LOCALS_SIZE then SET_FAULT v M_Fault.LOCALS_OOB
    else
      let val := vmTop v
      vmPopped { v with pc := (p : Int), locals := Function.update v.locals idx val }

/-- C `h_set`. -/
def h_set (v : M_VM) : M_VM :=
  match m_vm_decode_uvarint v.code v.pc.toNat with
  | none => SET_FAULT v M_Fault.BAD_ENCODING
  | some (idx, p) =>
    if v.sp + 1 < 1 then SET_FAULT v M_Fault.STACK_UNDERFLOW
    else if idx ≥ GLOBALS_SIZE then SET_FAULT v M_Fault.GLOBALS_OOB
    else
      let val := vmTop v
      vmPopped { v with pc := (p : Int), globals := Function.update v.globals idx val }

/-- C `h_add` (int64 arithmetic wraps in two's complement). -/
def h_add (v : M_VM) : M_VM :=
  if v.sp + 1 < 2 then SET_FAULT v M_Fault.STACK_UNDERFLOW
  else
    let b := to_int (vmTop v)
    let v := vmPopped v
    let a := to_int (vmTop v)
    let v := vmPopped v
    vmPush v (make_int (wrap64 (a + b)))

/-- C `h_sub`. -/
def h_sub (v : M_VM) : M_VM :=
  if v.sp + 1 < 2 then SET_FAULT v M_Fault.STACK_UNDERFLOW
  else
    let b := to_int (vmTop v)
    let v := vmPopped v
    let a := to_int (vmTop v)
    let v := vmPopped v
    vmPush v (make_int (wrap64 (a - b)))

/-- C `h_mul`. -/
def h_mul (v : M_VM) : M_VM :=
  if v.sp + 1 < 2 then SET_FAULT v M_Fault.STACK_UNDERFLOW
  else
    let b := to_int (vmTop v)
    let v := vmPopped v
    let a := to_int (vmTop v)
    let v := vmPopped v
    vmPush v (make_int (wrap64 (a * b)))

/-- C `h_div`: the divisor is popped BEFORE the zero check (C division
truncates toward zero, `Int.tdiv`). -/
def h_div (v : M_VM) : M_VM :=
  if v.sp + 1 < 2 then SET_FAULT v M_Fault.STACK_UNDERFLOW
  else
    let b := to_int (vmTop v)
    let v := vmPopped v
    if b = 0 then SET_FAULT v M_Fault.DIV_BY_ZERO
    else
      let a := to_int (vmTop v)
      let v := vmPopped v
      vmPush v (make_int (wrap64 (Int.tdiv a b)))

/-- C `h_mod` (C remainder, sign follows the dividend: `Int.tmod`). -/
def h_mod (v : M_VM) : M_VM :=
  if v.sp + 1 < 2 then SET_FAULT v M_Fault.STACK_UNDERFLOW
  else
    let b := to_int (vmTop v)
    let v := vmPopped v
    if b = 0 then SET_FAULT v M_Fault.MOD_BY_ZERO
    else
      let a := to_int (vmTop v)
      let v := vmPopped v
      vmPush v (make_int (wrap64 (Int.tmod a b)))

/-- C `h_and`. -/
def h_and (v : M_VM) : M_VM :=
  if v.sp + 1 < 2 then SET_FAULT v M_Fault.STACK_UNDERFLOW
  else
    let b := to_int (vmTop v)
    let v := vmPopped v
    let a := to_int (vmTop v)
    let v := vmPopped v
    vmPush v (make_int (and64 a b))

/-- C `h_or`. -/
def h_or (v : M_VM) : M_VM :=
  if v.sp + 1 < 2 then SET_FAULT v M_Fault.STACK_UNDERFLOW
  else
    let b := to_int (vmTop v)
    let v := vmPopped v
    let a := to_int (vmTop v)
    let v := vmPopped v
    vmPush v (make_int (or64 a b))

/-- C `h_xor`. -/
def h_xor (v : M_VM) : M_VM :=
  if v.sp + 1 < 2 then SET_FAULT v M_Fault.STACK_UNDERFLOW
  else
    let b := to_int (vmTop v)
    let v := vmPopped v
    let a := to_int (vmTop v)
    let v := vmPopped v
    vmPush v (make_int (xor64 a b))

/-- C `h_shl`: the shift amount is masked with `& 63`. -/
def h_shl (v : M_VM) : M_VM :=
  if v.sp + 1 < 2 then SET_FAULT v M_Fault.STACK_UNDERFLOW
  else
    let b := (u64ofI64 (to_int (vmTop v))) % 64
    let v := vmPopped v
    let a := to_int (vmTop v)
    let v := vmPopped v
    vmPush v (make_int (wrap64 (a * 2 ^ b)))

/-- C `h_shr`: masked shift; arithmetic right shift is floor division. -/
def h_shr (v : M_VM) : M_VM :=
  if v.sp + 1 < 2 then SET_FAULT v M_Fault.STACK_UNDERFLOW
  else
    let b := (u64ofI64 (to_int (vmTop v))) % 64
    let v := vmPopped v
    let a := to_int (vmTop v)
    let v := vmPopped v
    vmPush v (make_int (Int.fdiv a (2 ^ b)))

/-- C `h_neg`. -/
def h_neg (v : M_VM) : M_VM :=
  if v.sp + 1 < 1 then SET_FAULT v M_Fault.STACK_UNDERFLOW
  else
    let a := to_int (vmTop v)
    let v := vmPopped v
    vmPush v (make_int (wrap64 (-a)))

/-- C `h_not` (bitwise NOT: `~a = -a-1`). -/
def h_not (v : M_VM) : M_VM :=
  if v.sp + 1 < 1 then SET_FAULT v M_Fault.STACK_UNDERFLOW
  else
    let a := to_int (vmTop v)
    let v := vmPopped v
    vmPush v (make_int (wrap64 (-a - 1)))

/-- C `h_lt`. -/
def h_lt (v : M_VM) : M_VM :=
  if v.sp + 1 < 2 then SET_FAULT v M_Fault.STACK_UNDERFLOW
  else
    let b := to_int (vmTop v)
    let v := vmPopped v
    let a := to_int (vmTop v)
    let v := vmPopped v
    vmPush v (make_int (if a < b then 1 else 0))

/-- C `h_gt`. -/
def h_gt (v : M_VM) : M_VM :=
  if v.sp + 1 < 2 then SET_FAULT v M_Fault.STACK_UNDERFLOW
  else
    let b := to_int (vmTop v)
    let v := vmPopped v
    let a := to_int (vmTop v)
    let v := vmPopped v
    vmPush v (make_int (if a > b then 1 else 0))

/-- C `h_le`. -/
def h_le (v : M_VM) : M_VM :=
  if v.sp + 1 < 2 then SET_FAULT v M_Fault.STACK_UNDERFLOW
  else
    let b := to_int (vmTop v)
    let v := vmPopped v
    let a := to_int (vmTop v)
    let v := vmPopped v
    vmPush v (make_int (if a ≤ b then 1 else 0))

/-- C `h_ge`. -/
def h_ge (v : M_VM) : M_VM :=
  if v.sp + 1 < 2 then SET_FAULT v M_Fault.STACK_UNDERFLOW
  else
    let b := to_int (vmTop v)
    let v := vmPopped v
    let a := to_int (vmTop v)
    let v := vmPopped v
    vmPush v (make_int (if a ≥ b then 1 else 0))

/-- C `h_eq`: same-type comparison, mixed types give 0 without fault. -/
def h_eq (v : M_VM) : M_VM :=
  if v.sp + 1 < 2 then SET_FAULT v M_Fault.STACK_UNDERFLOW
  else
    let b := vmTop v
    let v := vmPopped v
    let a := vmTop v
    let v := vmPopped v
    let result : Int :=
      match a, b with
      | MValue.int x, MValue.int y => if x = y then 1 else 0
      | MValue.float x, MValue.float y => if x = y then 1 else 0
      | MValue.bool x, MValue.bool y => if x = y then 1 else 0
      | _, _ => 0
    vmPush v (make_int result)

/-- C `h_neq`: mixed types give 0 (not 1), as in the source. -/
def h_neq (v : M_VM) : M_VM :=
  if v.sp + 1 < 2 then SET_FAULT v M_Fault.STACK_UNDERFLOW
  else
    let b := vmTop v
    let v := vmPopped v
    let a := vmTop v
    let v := vmPopped v
    let result : Int :=
      match a, b with
      | MValue.int x, MValue.int y => if x ≠ y then 1 else 0
      | MValue.float x, MValue.float y => if x ≠ y then 1 else 0
      | MValue.bool x, MValue.bool y => if x ≠ y then 1 else 0
      | _, _ => 0
    vmPush v (make_int result)

/-- Length/contents of the array record a pointer refers to; a pointer whose
heap cell is gone (freed) is rendered as an empty array — the deterministic
stand-in for the C read of freed memory, unreachable in defined executions. -/
def heap_arr (v : M_VM) (ptr : Nat) : Int × Int × (Nat → MValue) :=
  match v.heap ptr with
  | some (HeapObj.arr len cap data) => (len, cap, data)
  | _ => (0, 0, fun _ => MValue.int 0)

/-- C `h_len`. -/
def h_len (v : M_VM) : M_VM :=
  if v.sp + 1 < 1 then SET_FAULT v M_Fault.STACK_UNDERFLOW
  else
    let arrv := vmTop v
    let v := vmPopped v
    match arrv with
    | MValue.array p => vmPush v (make_int (heap_arr v p).1)
    | _ => SET_FAULT v M_Fault.TYPE_MISMATCH

/-- C `h_newarr`: elements are zero-initialised `Int 0`. -/
def h_newarr (v : M_VM) : M_VM :=
  if v.sp + 1 < 1 then SET_FAULT v M_Fault.STACK_UNDERFLOW
  else
    let size := to_int (vmTop v)
    let v := vmPopped v
    if size < 0 then SET_FAULT v M_Fault.BAD_ARG
    else if size > 1000000 then SET_FAULT v M_Fault.BAD_ARG
    else
      let ptr := v.next_ptr
      let v := { v with
        heap := Function.update v.heap ptr
          (some (HeapObj.arr size size (fun _ => MValue.int 0))),
        alloc_list := ptr :: v.alloc_list,
        next_ptr := v.next_ptr + 1 }
      vmPush v (MValue.array ptr)

/-- C `h_idx`. -/
def h_idx (v : M_VM) : M_VM :=
  if v.sp + 1 < 2 then SET_FAULT v M_Fault.STACK_UNDERFLOW
  else
    let idx := to_int (vmTop v)
    let v := vmPopped v
    let arrv := vmTop v
    let v := vmPopped v
    match arrv with
    | MValue.array p =>
      let rec_ := heap_arr v p
      if idx < 0 ∨ idx ≥ rec_.1 then SET_FAULT v M_Fault.INDEX_OOB
      else vmPush v (rec_.2.2 idx.toNat)
    | _ => SET_FAULT v M_Fault.TYPE_MISMATCH

/-- C `h_sto`: mutate the array record in place and push the reference back. -/
def h_sto (v : M_VM) : M_VM :=
  if v.sp + 1 < 3 then SET_FAULT v M_Fault.STACK_UNDERFLOW
  else
    let val := vmTop v
    let v := vmPopped v
    let idx := to_int (vmTop v)
    let v := vmPopped v
    let arrv := vmTop v
    let v := vmPopped v
    match arrv with
    | MValue.array p =>
      let rec_ := heap_arr v p
      if idx < 0 ∨ idx ≥ rec_.1 then SET_FAULT v M_Fault.INDEX_OOB
      else
        let newobj := some (HeapObj.arr rec_.1 rec_.2.1 (Function.update rec_.2.2 idx.toNat val))
        let v := { v with heap := Function.update v.heap p newobj }
        vmPush v (MValue.array p)
    | _ => SET_FAULT v M_Fault.TYPE_MISMATCH

/-- C `h_get` (identical body to `h_idx`, a separate function in the source). -/
def h_get (v : M_VM) : M_VM :=
  if v.sp + 1 < 2 then SET_FAULT v M_Fault.STACK_UNDERFLOW
  else
    let idx := to_int (vmTop v)
    let v := vmPopped v
    let arrv := vmTop v
    let v := vmPopped v
    match arrv with
    | MValue.array p =>
      let rec_ := heap_arr v p
      if idx < 0 ∨ idx ≥ rec_.1 then SET_FAULT v M_Fault.INDEX_OOB
      else vmPush v (rec_.2.2 idx.toNat)
    | _ => SET_FAULT v M_Fault.TYPE_MISMATCH

/-- C `h_put` (identical body to `h_sto`). -/
def h_put (v : M_VM) : M_VM :=
  if v.sp + 1 < 3 then SET_FAULT v M_Fault.STACK_UNDERFLOW
  else
    let val := vmTop v
    let v := vmPopped v
    let idx := to_int (vmTop v)
    let v := vmPopped v
    let arrv := vmTop v
    let v := vmPopped v
    match arrv with
    | MValue.array p =>
      let rec_ := heap_arr v p
      if idx < 0 ∨ idx ≥ rec_.1 then SET_FAULT v M_Fault.INDEX_OOB
      else
        let newobj := some (HeapObj.arr rec_.1 rec_.2.1 (Function.update rec_.2.2 idx.toNat val))
        let v := { v with heap := Function.update v.heap p newobj }
        vmPush v (MValue.array p)
    | _ => SET_FAULT v M_Fault.TYPE_MISMATCH

/-- C `h_b` (no-op marker). -/
def h_b (v : M_VM) : M_VM := v

/-- C `h_e` (no-op marker). -/
def h_e (v : M_VM) : M_VM := v

/-- C `h_if`: pop the condition, advance past one varint, and on a falsy
condition run the flat block scan, then skip one byte (the `E`) and one
varint (the else-block's `B`). -/
def h_if (v : M_VM) : Option M_VM :=
  if v.sp + 1 < 1 then some (SET_FAULT v M_Fault.STACK_UNDERFLOW)
  else
    let cond := vmTop v
    let v := vmPopped v
    let start_pc := v.pc
    let pc1 := skip_uvarint v.code start_pc
    let v := { v with pc := pc1 }
    if ¬to_bool cond then
      match skip_block_scan v.code v.code.length (v.code.length + 1) pc1.toNat 1 with
      | none => none
      | some pcE =>
        let pc2 : Int := (pcE : Int) + 1
        let pc3 := skip_uvarint v.code pc2
        some { v with pc := pc3 }
    else some v

/-- C `h_wh`: pop the condition; skip two varints (intended as the `WH`
opcode and the `B`, but `pc` is already past `WH`, so this really skips the
`B` and the first body varint); on a falsy condition scan to the loop's `E`
and continue past it.  No back edge exists: a truthy condition just falls
through. -/
def h_wh (v : M_VM) : Option M_VM :=
  if v.sp + 1 < 1 then some (SET_FAULT v M_Fault.STACK_UNDERFLOW)
  else
    let cond := vmTop v
    let v := vmPopped v
    let pc1 := skip_uvarint v.code v.pc
    let pc2 := skip_uvarint v.code pc1
    let v := { v with pc := pc2 }
    if ¬to_bool cond then
      match skip_block_scan v.code v.code.length (v.code.length + 1) pc2.toNat 1 with
      | none => none
      | some pcE => some { v with pc := (pcE : Int) + 1 }
    else some v

/-- C `h_fr`: like `h_wh` but the condition test is `to_int = 0`. -/
def h_fr (v : M_VM) : Option M_VM :=
  if v.sp + 1 < 1 then some (SET_FAULT v M_Fault.STACK_UNDERFLOW)
  else
    let cond := to_int (vmTop v)
    let v := vmPopped v
    let pc1 := skip_uvarint v.code v.pc
    let pc2 := skip_uvarint v.code pc1
    let v := { v with pc := pc2 }
    if cond = 0 then
      match skip_block_scan v.code v.code.length (v.code.length + 1) pc2.toNat 1 with
      | none => none
      | some pcE => some { v with pc := (pcE : Int) + 1 }
    else some v

/-- Shared token-indexed jump resolution of `h_jz`/`h_jnz`/`h_jmp`/
`h_dwhl`/`h_whil`: target in opcode-token units relative to the next token,
resolved through `token_offsets`. -/
def vm_jump_to (v : M_VM) (offset : Int) : M_VM :=
  let base := v.last_op_index + 1
  let target := base + offset
  if v.token_offsets = none ∨ v.last_op_index < 0 ∨ target < 0 ∨
      target ≥ v.token_count then
    SET_FAULT v M_Fault.PC_OOB
  else { v with pc := (v.token_offsets.getD []).getD target.toNat 0 }

/-- C `h_jz`. -/
def h_jz (v : M_VM) : M_VM :=
  if v.sp + 1 < 1 then SET_FAULT v M_Fault.STACK_UNDERFLOW
  else
    let cond := to_int (vmTop v)
    let v := vmPopped v
    match m_vm_decode_svarint v.code v.pc.toNat with
    | none => SET_FAULT v M_Fault.BAD_ENCODING
    | some (off, p) =>
      let v := { v with pc := (p : Int) }
      if cond = 0 then vm_jump_to v off else v

/-- C `h_jnz`. -/
def h_jnz (v : M_VM) : M_VM :=
  if v.sp + 1 < 1 then SET_FAULT v M_Fault.STACK_UNDERFLOW
  else
    let cond := to_int (vmTop v)
    let v := vmPopped v
    match m_vm_decode_svarint v.code v.pc.toNat with
    | none => SET_FAULT v M_Fault.BAD_ENCODING
    | some (off, p) =>
      let v := { v with pc := (p : Int) }
      if cond ≠ 0 then vm_jump_to v off else v

/-- C `h_do` (marker, no-op). -/
def h_do (v : M_VM) : M_VM := v

/-- C `h_dwhl`. -/
def h_dwhl (v : M_VM) : M_VM :=
  if v.sp + 1 < 1 then SET_FAULT v M_Fault.STACK_UNDERFLOW
  else
    let cond := to_int (vmTop v)
    let v := vmPopped v
    match m_vm_decode_svarint v.code v.pc.toNat with
    | none => SET_FAULT v M_Fault.BAD_ENCODING
    | some (off, p) =>
      let v := { v with pc := (p : Int) }
      if cond ≠ 0 then vm_jump_to v off else v

/-- C `h_whil`. -/
def h_whil (v : M_VM) : M_VM :=
  if v.sp + 1 < 1 then SET_FAULT v M_Fault.STACK_UNDERFLOW
  else
    let cond := to_int (vmTop v)
    let v := vmPopped v
    match m_vm_decode_svarint v.code v.pc.toNat with
    | none => SET_FAULT v M_Fault.BAD_ENCODING
    | some (off, p) =>
      let v := { v with pc := (p : Int) }
      if cond = 0 then vm_jump_to v off else v

/-- C `h_jmp`. -/
def h_jmp (v : M_VM) : M_VM :=
  match m_vm_decode_svarint v.code v.pc.toNat with
  | none => SET_FAULT v M_Fault.BAD_ENCODING
  | some (off, p) =>
    let v := { v with pc := (p : Int) }
    vm_jump_to v off

/-- C `h_rt`: the return address is popped BEFORE the pc bound and data-stack
checks (the claim-C5 fault paths). -/
def h_rt (v : M_VM) : M_VM :=
  if v.rp < 0 then SET_FAULT v M_Fault.RET_STACK_UNDERFLOW
  else
    let ret_addr := v.ret_stack v.rp.toNat
    let v := { v with rp := v.rp - 1 }
    if ret_addr < 0 ∨ ret_addr ≥ v.code_len then SET_FAULT v M_Fault.PC_OOB
    else if v.sp + 1 < 1 then SET_FAULT v M_Fault.STACK_UNDERFLOW
    else
      let ret_val := vmTop v
      let v := vmPopped v
      if v.frame_sp < 0 then SET_FAULT v M_Fault.RET_STACK_UNDERFLOW
      else
        let v := { v with
          locals := v.locals_frames v.frame_sp.toNat,
          frame_sp := v.frame_sp - 1,
          call_depth := v.call_depth - 1,
          pc := ret_addr }
        vmPush v ret_val

/-- C `h_fn`: run-time skip of a function body — skip two varints (arity and
`B`), scan to the matching `E`, continue one byte past it. -/
def h_fn (v : M_VM) : Option M_VM :=
  let pc1 := skip_uvarint v.code v.pc
  let pc2 := skip_uvarint v.code pc1
  match skip_block_scan v.code v.code.length (v.code.length + 1) pc2.toNat 1 with
  | none => none
  | some pcE => some { v with pc := (pcE : Int) + 1 }

/-- Argument binding loop of C `h_cl`: `locals[i] = POP` for `i < argc`. -/
def cl_bind_args : Nat → Nat → M_VM → M_VM
  | _, 0, v => v
  | i, k + 1, v =>
    let val := vmTop v
    let v := vmPopped { v with locals := Function.update v.locals i val }
    cl_bind_args (i + 1) k v

/-- C `h_cl`. -/
def h_cl (v : M_VM) : M_VM :=
  match m_vm_decode_uvarint v.code v.pc.toNat with
  | none => SET_FAULT v M_Fault.BAD_ENCODING
  | some (func_id, p1) =>
  match m_vm_decode_uvarint v.code p1 with
  | none => SET_FAULT v M_Fault.BAD_ENCODING
  | some (argc, p2) =>
    if v.sp + 1 < (argc : Int) then SET_FAULT v M_Fault.STACK_UNDERFLOW
    else if v.call_depth ≥ v.call_depth_limit then SET_FAULT v M_Fault.CALL_DEPTH_LIMIT
    else
      let v := { v with call_depth := v.call_depth + 1 }
      if v.frame_sp + 1 ≥ (RET_STACK_SIZE : Int) then
        SET_FAULT v M_Fault.RET_STACK_OVERFLOW
      else
        let v := { v with
          frame_sp := v.frame_sp + 1,
          locals_frames := Function.update v.locals_frames (v.frame_sp + 1).toNat v.locals,
          locals := fun _ => MValue.int 0 }
        let v := cl_bind_args 0 argc v
        if v.rp + 1 ≥ (RET_STACK_SIZE : Int) then SET_FAULT v M_Fault.RET_STACK_OVERFLOW
        else
          let v := { v with
            rp := v.rp + 1,
            ret_stack := Function.update v.ret_stack (v.rp + 1).toNat (p2 : Int) }
          let fn_pc : Int := (func_id : Int)
          let next_pc := skip_uvarint v.code (skip_uvarint v.code (skip_uvarint v.code fn_pc))
          if next_pc < 0 ∨ next_pc ≥ v.code_len then SET_FAULT v M_Fault.PC_OOB
          else { v with pc := next_pc }

/-- C `h_halt`. -/
def h_halt (v : M_VM) : M_VM := { v with running := false }

/-- C `h_gtway`: set capability bit `key` (key ≤ 255, else `BAD_ARG`). -/
def h_gtway (v : M_VM) : M_VM :=
  match m_vm_decode_uvarint v.code v.pc.toNat with
  | none => SET_FAULT v M_Fault.BAD_ENCODING
  | some (key, p) =>
    let v := { v with pc := (p : Int) }
    if key > 255 then SET_FAULT v M_Fault.BAD_ARG
    else caps_add v key

/-- C `h_wait`: invoke the host sleep callback (recorded in the log). -/
def h_wait (host : Host) (v : M_VM) : M_VM :=
  match m_vm_decode_uvarint v.code v.pc.toNat with
  | none => SET_FAULT v M_Fault.BAD_ENCODING
  | some (ms, p) =>
    let v := if host.sleep_ms then
      { v with io_log := v.io_log ++ [IOEvent.sleep_ev (i32ofU32 ms)] } else v
    { v with pc := (p : Int) }

/-- C `h_iow`: decode device, check stack depth, THEN the capability; only
with the bit set is the host write callback invoked. -/
def h_iow (host : Host) (v : M_VM) : M_VM :=
  match m_vm_decode_uvarint v.code v.pc.toNat with
  | none => SET_FAULT v M_Fault.BAD_ENCODING
  | some (dev, p) =>
    if v.sp + 1 < 1 then SET_FAULT v M_Fault.STACK_UNDERFLOW
    else if ¬caps_has v dev then SET_FAULT v M_Fault.UNAUTHORIZED
    else
      let val := vmTop v
      let v := vmPopped v
      let v := if host.io_write then
        { v with io_log := v.io_log ++ [IOEvent.write (dev % 256) val] } else v
      { v with pc := (p : Int) }

/-- C `h_ior`: decode device, check stack space, THEN the capability; only
with the bit set is the host read callback consulted. -/
def h_ior (host : Host) (v : M_VM) : M_VM :=
  match m_vm_decode_uvarint v.code v.pc.toNat with
  | none => SET_FAULT v M_Fault.BAD_ENCODING
  | some (dev, p) =>
    if v.sp + 1 ≥ v.stack_limit ∨ v.sp + 1 ≥ (STACK_SIZE : Int) then
      SET_FAULT v M_Fault.STACK_OVERFLOW
    else if ¬caps_has v dev then SET_FAULT v M_Fault.UNAUTHORIZED
    else
      let val := match host.io_read with
        | some f => f (dev % 256)
        | none => make_int 0
      let v := match host.io_read with
        | some _ => { v with io_log := v.io_log ++ [IOEvent.read (dev % 256) val] }
        | none => v
      vmPush { v with pc := (p : Int) } val

/-- C `h_trace`: invoke the host trace callback with (last pc, last op, sp). -/
def h_trace (host : Host) (v : M_VM) : M_VM :=
  match m_vm_decode_uvarint v.code v.pc.toNat with
  | none => SET_FAULT v M_Fault.BAD_ENCODING
  | some (level, p) =>
    let v := if host.trace then
      { v with io_log := v.io_log ++ [IOEvent.trace_ev level v.last_pc v.last_op v.sp] }
      else v
    { v with pc := (p : Int) }

/-- C `h_ph` (placeholder, no-op). -/
def h_ph (v : M_VM) : M_VM := v

/-! ## Gas table, dispatch table and the step function -/

/-- C `GAS_COST` designated-initializer table (uninitialised entries are 0). -/
def GAS_COST (op : Nat) : Nat :=
  if op = M_LIT ∨ op = M_V ∨ op = M_LET then 2
  else if op = M_SET then 3
  else if op = M_ADD ∨ op = M_SUB then 1
  else if op = M_MUL then 3
  else if op = M_DIV then 5
  else if op = M_AND ∨ op = M_OR ∨ op = M_XOR ∨ op = M_SHL ∨ op = M_SHR then 1
  else if op = M_LT ∨ op = M_GT ∨ op = M_LE ∨ op = M_GE ∨ op = M_EQ then 1
  else if op = M_DUP ∨ op = M_DRP ∨ op = M_ROT then 1
  else if op = M_LEN ∨ op = M_GET ∨ op = M_GET_ALIAS then 2
  else if op = M_PUT ∨ op = M_PUT_ALIAS then 3
  else if op = M_SWP ∨ op = M_SWP_ALIAS then 1
  else if op = M_ALLOC then 5
  else if op = M_FREE then 2
  else if op = M_NEWARR then 5
  else if op = M_IDX then 2
  else if op = M_STO then 3
  else if op = M_B ∨ op = M_E then 0
  else if op = M_IF ∨ op = M_WH ∨ op = M_FR then 1
  else if op = M_RT then 2
  else if op = M_CL then 5
  else if op = M_HALT then 0
  else if op = M_GTWAY ∨ op = M_WAIT then 1
  else if op = M_IOW then 5
  else if op = M_IOR then 3
  else if op = M_TRACE then 1
  else if op = M_PH then 0
  else if op = M_GC then 10
  else if op = M_BP then 1
  else if op = M_STEP then 0
  else if op = M_JZ ∨ op = M_JNZ ∨ op = M_JMP then 1
  else if op = M_MOD then 5
  else if op = M_NEG ∨ op = M_NOT ∨ op = M_NEQ then 1
  else if op = M_DWHL then 1
  else if op = M_DO then 0
  else if op = M_WHIL then 1
  else 0

/-- Membership in the C dispatch `TABLE` (a null entry means `UnknownOp`). -/
def TABLE_has (op : Nat) : Bool :=
  op ∈ [M_LIT, M_V, M_LET, M_SET, M_ADD, M_SUB, M_MUL, M_DIV, M_AND, M_OR,
    M_XOR, M_SHL, M_SHR, M_LT, M_GT, M_LE, M_GE, M_EQ, M_DUP, M_DRP, M_ROT,
    M_LEN, M_GET, M_PUT, M_SWP, M_GET_ALIAS, M_PUT_ALIAS, M_SWP_ALIAS,
    M_NEWARR, M_IDX, M_STO, M_B, M_E, M_IF, M_WH, M_FR, M_FN, M_RT, M_CL,
    M_HALT, M_GTWAY, M_WAIT, M_IOW, M_IOR, M_TRACE, M_PH, M_GC, M_BP,
    M_STEP, M_ALLOC, M_FREE, M_JZ, M_JNZ, M_JMP, M_MOD, M_NEG, M_NOT,
    M_NEQ, M_DWHL, M_DO, M_WHIL]

/-- Dispatch through the C handler `TABLE`.  The four handlers that run the
block scanner can diverge in C (`none`); all others are total. -/
def vm_dispatch (host : Host) (op : Nat) (v : M_VM) : Option M_VM :=
  if op = M_LIT then some (h_lit v)
  else if op = M_V then some (h_v v)
  else if op = M_LET then some (h_let v)
  else if op = M_SET then some (h_set v)
  else if op = M_ADD then some (h_add v)
  else if op = M_SUB then some (h_sub v)
  else if op = M_MUL then some (h_mul v)
  else if op = M_DIV then some (h_div v)
  else if op = M_AND then some (h_and v)
  else if op = M_OR then some (h_or v)
  else if op = M_XOR then some (h_xor v)
  else if op = M_SHL then some (h_shl v)
  else if op = M_SHR then some (h_shr v)
  else if op = M_LT then some (h_lt v)
  else if op = M_GT then some (h_gt v)
  else if op = M_LE then some (h_le v)
  else if op = M_GE then some (h_ge v)
  else if op = M_EQ then some (h_eq v)
  else if op = M_DUP then some (h_dup v)
  else if op = M_DRP then some (h_drp v)
  else if op = M_ROT then some (h_rot v)
  else if op = M_LEN then some (h_len v)
  else if op = M_GET then some (h_get v)
  else if op = M_PUT then some (h_put v)
  else if op = M_SWP then some (h_swp v)
  else if op = M_GET_ALIAS then some (h_get v)
  else if op = M_PUT_ALIAS then some (h_put v)
  else if op = M_SWP_ALIAS then some (h_swp v)
  else if op = M_NEWARR then some (h_newarr v)
  else if op = M_IDX then some (h_idx v)
  else if op = M_STO then some (h_sto v)
  else if op = M_B then some (h_b v)
  else if op = M_E then some (h_e v)
  else if op = M_IF then h_if v
  else if op = M_WH then h_wh v
  else if op = M_FR then h_fr v
  else if op = M_FN then h_fn v
  else if op = M_RT then some (h_rt v)
  else if op = M_CL then some (h_cl v)
  else if op = M_HALT then some (h_halt v)
  else if op = M_GTWAY then some (h_gtway v)
  else if op = M_WAIT then some (h_wait host v)
  else if op = M_IOW then some (h_iow host v)
  else if op = M_IOR then some (h_ior host v)
  else if op = M_TRACE then some (h_trace host v)
  else if op = M_PH then some (h_ph v)
  else if op = M_GC then some (h_gc host v)
  else if op = M_BP then some (h_bp v)
  else if op = M_STEP then some (h_step v)
  else if op = M_ALLOC then some (h_alloc v)
  else if op = M_FREE then some (h_free v)
  else if op = M_JZ then some (h_jz v)
  else if op = M_JNZ then some (h_jnz v)
  else if op = M_JMP then some (h_jmp v)
  else if op = M_MOD then some (h_mod v)
  else if op = M_NEG then some (h_neg v)
  else if op = M_NOT then some (h_not v)
  else if op = M_NEQ then some (h_neq v)
  else if op = M_DWHL then some (h_dwhl v)
  else if op = M_DO then some (h_do v)
  else if op = M_WHIL then some (h_whil v)
  else some v

/-- The decode/dispatch tail of C `m_vm_step` (from the opcode fetch at line
2334 on), shared by both `byte_to_token` branches. -/
def m_vm_step_exec (host : Host) (v : M_VM) : Option M_VM :=
  match m_vm_decode_uvarint v.code v.pc.toNat with
  | none => some (SET_FAULT v M_Fault.BAD_ENCODING)
  | some (op, p) =>
    let v := { v with pc := (p : Int), last_op := op }
    if op > 255 then some (SET_FAULT v M_Fault.UNKNOWN_OP)
    else if ¬TABLE_has op then some (SET_FAULT v M_Fault.UNKNOWN_OP)
    else
      let v := if v.gas_limit > 0 then { v with gas := v.gas + GAS_COST op } else v
      if v.gas_limit > 0 ∧ v.gas > v.gas_limit then
        some (SET_FAULT v M_Fault.GAS_EXHAUSTED)
      else
        match vm_dispatch host op v with
        | none => none
        | some v2 =>
          if v2.single_step then
            some { v2 with single_step := false, running := false }
          else some v2

/-- C `m_vm_step` (lines 2307–2376): one fetch/decode/dispatch step.  The
`none` result is the divergence of a block scan inside a handler. -/
def m_vm_step (host : Host) (v : M_VM) : Option M_VM :=
  if ¬v.running then some v
  else if v.pc < 0 ∨ v.pc ≥ v.code_len then some (SET_FAULT v M_Fault.PC_OOB)
  else
    let v := { v with steps := v.steps + 1 }
    if v.step_limit > 0 ∧ v.steps > v.step_limit then
      some (SET_FAULT v M_Fault.STEP_LIMIT)
    else
      let v := { v with last_pc := v.pc }
      match v.byte_to_token with
      | some b2t =>
        let idx := if 0 ≤ v.pc ∧ v.pc < v.code_len then b2t.getD v.pc.toNat (-1) else -1
        if idx < 0 then some (SET_FAULT { v with last_op_index := idx } M_Fault.BAD_ENCODING)
        else m_vm_step_exec host { v with last_op_index := idx }
      | none => m_vm_step_exec host { v with last_op_index := -1 }

/-! ## Run, reset and simulate (`m_vm.c` lines 2251–2441) -/

/-- The pre-loop session reset performed by C `m_vm_run` (lines 2379–2391):
fresh pc, empty data/return/frame stacks, zeroed locals and globals, cleared
fault, counters and capability bits, and `running := true`. -/
def m_vm_run_init (v : M_VM) : M_VM :=
  { v with
    pc := 0, sp := -1, rp := -1,
    locals := fun _ => MValue.int 0,
    globals := fun _ => MValue.int 0,
    frame_sp := -1,
    fault := M_Fault.NONE,
    last_pc := -1,
    steps := 0, gas := 0,
    authorized := false,
    caps := caps_clear,
    running := true }

/-- The `while (vm->running && vm->pc < vm->code_len)` loop of C `m_vm_run`,
fuelled; `none` means the fuel did not cover the run (or a handler
diverged). -/
def m_vm_run_loop (host : Host) : Nat → M_VM → Option M_VM
  | 0, _ => none
  | fuel + 1, v =>
    if v.running ∧ v.pc < v.code_len then
      match m_vm_step host v with
      | none => none
      | some v2 => if v2.running then m_vm_run_loop host fuel v2 else some v2
    else some { v with running := false }

/-- C `m_vm_run`. -/
def m_vm_run (host : Host) (fuel : Nat) (v : M_VM) : Option M_VM :=
  m_vm_run_loop host fuel (m_vm_run_init v)

/-- C `m_vm_reset` (lines 2251–2299): memset the struct and restore the
saved fields (code, limits, callbacks, allocation list, token maps); the
breakpoint table is process-wide in C and survives; the ghost event log is
history and is kept. -/
def m_vm_reset (v : M_VM) : M_VM :=
  { code := v.code
    code_len := v.code_len
    pc := 0
    sp := -1
    stack := fun _ => MValue.int 0
    rp := -1
    ret_stack := fun _ => 0
    locals := fun _ => MValue.int 0
    local_count := 0
    frame_sp := -1
    locals_frames := fun _ _ => MValue.int 0
    globals := fun _ => MValue.int 0
    caps := caps_clear
    running := false
    authorized := false
    fault := M_Fault.NONE
    last_pc := -1
    last_op := 0
    last_op_index := -1
    steps := 0
    step_limit := v.step_limit
    gas := 0
    gas_limit := v.gas_limit
    call_depth := 0
    call_depth_limit := v.call_depth_limit
    stack_limit := if v.stack_limit > 0 then v.stack_limit else (STACK_SIZE : Int)
    single_step := false
    token_offsets := v.token_offsets
    token_count := v.token_count
    byte_to_token := v.byte_to_token
    heap := v.heap
    alloc_list := v.alloc_list
    next_ptr := v.next_ptr
    alloc_count := 0
    gc_enabled := false
    gc_threshold := 0
    breakpoints := v.breakpoints
    io_log := v.io_log }

/-- C `M_TraceEntry`. -/
structure M_TraceEntry where
  step : Nat
  pc : Int
  op : Nat
  sp : Int
  stack_top : Int
deriving DecidableEq, Repr

/-- C `M_SimResult` (without the fixed-size cap being materialised; the
trace list is truncated at `MAX_TRACE` like the C array). -/
structure M_SimResult where
  completed : Bool
  halted : Bool
  fault : M_Fault
  steps : Nat
  result : Int
  sp : Int
  trace : List M_TraceEntry
deriving DecidableEq, Repr

/-- The zeroed result record (`memset` in `m_vm_simulate`). -/
def sim_result_init : M_SimResult := ⟨false, false, M_Fault.NONE, 0, 0, 0, []⟩

/-- One trace row of `m_vm_simulate` (recorded after the step). -/
def sim_record (r : M_SimResult) (v : M_VM) (prev_pc : Int) : M_SimResult :=
  if r.trace.length < MAX_TRACE then
    { r with trace := r.trace ++
        [⟨v.steps, prev_pc, v.last_op, v.sp,
          if v.sp ≥ 0 then val_u_i (v.stack v.sp.toNat) else 0⟩] }
  else r

/-- Filling of the result record on exit from `m_vm_simulate`. -/
def sim_finalize (r : M_SimResult) (v : M_VM) : M_SimResult :=
  { r with
    halted := true
    fault := v.fault
    steps := v.steps
    sp := v.sp
    result := if v.sp ≥ 0 then val_u_i (v.stack v.sp.toNat) else r.result
    completed := v.fault = M_Fault.NONE }

/-- The recording loop of C `m_vm_simulate`. -/
def m_vm_simulate_loop (host : Host) : Nat → M_VM → M_SimResult → Option M_SimResult
  | 0, _, _ => none
  | fuel + 1, v, r =>
    if v.running ∧ v.pc < v.code_len then
      let prev_pc := v.pc
      match m_vm_step host v with
      | none => none
      | some v2 =>
        let r2 := sim_record r v2 prev_pc
        if ¬v2.running then some (sim_finalize r2 v2)
        else m_vm_simulate_loop host fuel v2 r2
    else some (sim_finalize r v)

/-- C `m_vm_simulate`: reset, run recording a trace, and report
`{completed, fault, steps, sp, result (top of stack as i64), trace}`. -/
def m_vm_simulate (host : Host) (fuel : Nat) (v : M_VM) : Option M_SimResult :=
  m_vm_simulate_loop host fuel { m_vm_reset v with running := true } sim_result_init

/-! ## Token map construction (`m_vm.c` lines 131–225) -/

/-- C `skip_operands`: advance `pc` past the operands of `op`. -/
def skip_operands (code : List Nat) (op : Nat) (pc : Nat) : Option Nat :=
  if op = M_LIT then
    match m_vm_decode_uvarint64 code pc with
    | some (_, p) => some p
    | none => none
  else if op = M_V ∨ op = M_LET ∨ op = M_SET ∨ op = M_GTWAY ∨ op = M_WAIT ∨
      op = M_IOW ∨ op = M_IOR ∨ op = M_TRACE ∨ op = M_BP then
    match m_vm_decode_uvarint code pc with
    | some (_, p) => some p
    | none => none
  else if op = M_CL then
    match m_vm_decode_uvarint code pc with
    | none => none
    | some (_, p1) =>
      match m_vm_decode_uvarint code p1 with
      | some (_, p2) => some p2
      | none => none
  else if op = M_FN then
    match m_vm_decode_uvarint code pc with
    | some (_, p) => some p
    | none => none
  else if op = M_JZ ∨ op = M_JNZ ∨ op = M_JMP ∨ op = M_DWHL ∨ op = M_WHIL then
    match m_vm_decode_svarint code pc with
    | some (_, p) => some p
    | none => none
  else some pc

/-- Walk of C `build_token_map`: the byte offset of every opcode token. -/
def token_offsets_go (code : List Nat) : Nat → Nat → List Nat → Option (List Nat)
  | 0, _, acc => some acc
  | fuel + 1, pc, acc =>
    if pc < code.length then
      match m_vm_decode_uvarint code pc with
      | none => none
      | some (op, p1) =>
        match skip_operands code op p1 with
        | none => none
        | some p2 => token_offsets_go code fuel p2 (acc ++ [pc])
    else some acc

/-- C `build_token_map`: produces `token_offsets`, `byte_to_token` (−1 for
bytes inside a token's tail) and the token count. -/
def build_token_map (code : List Nat) : Option (List Int × List Int × Nat) :=
  if code.length = 0 then none
  else
    match token_offsets_go code (code.length + 1) 0 [] with
    | none => none
    | some offs =>
      let b2t := (List.range code.length).map
        (fun b => match offs.indexOf? b with
          | some i => (i : Int)
          | none => (-1 : Int))
      some (offs.map (fun o => (o : Int)), b2t, offs.length)

/-! ## Structured-loop lowering (`m_vm.c` lines 227–752)

`lower_structured` rewrites `WH`/`FR` loops into `JZ`/`JMP` at load time.
The embedding mirrors the C passes: tokenize (`read_token` — note that,
exactly as in the source, `FN`'s arity operand is NOT consumed here), the
stack-origin simulation with a 256-slot `Range` stack, loop capture, the
output-token emission with `orig_to_out` index mapping, and re-encoding. -/

structure Tok where
  op : Nat
  start : Nat
  stop : Nat
  imm_u64 : Nat
  imm_u32 : Nat
  imm_u32_b : Nat
  imm_s32 : Int
  imm_mask : Nat
deriving DecidableEq, Repr

def tokDefault : Tok := ⟨0, 0, 0, 0, 0, 0, 0, 0⟩

/-- C `read_token` (`m_vm.c` lines 282–343). -/
def read_token (code : List Nat) (pc : Nat) : Option (Tok × Nat) :=
  match m_vm_decode_uvarint code pc with
  | none => none
  | some (op, p1) =>
    if op = M_LIT then
      match m_vm_decode_uvarint64 code p1 with
      | none => none
      | some (v, p2) => some (⟨op, pc, p2, v, 0, 0, 0, 0x4⟩, p2)
    else if op = M_V ∨ op = M_LET ∨ op = M_SET ∨ op = M_GTWAY ∨ op = M_WAIT ∨
        op = M_IOW ∨ op = M_IOR ∨ op = M_TRACE ∨ op = M_BP then
      match m_vm_decode_uvarint code p1 with
      | none => none
      | some (v, p2) => some (⟨op, pc, p2, 0, v, 0, 0, 0x1⟩, p2)
    else if op = M_CL then
      match m_vm_decode_uvarint code p1 with
      | none => none
      | some (f, p2) =>
        match m_vm_decode_uvarint code p2 with
        | none => none
        | some (a, p3) => some (⟨op, pc, p3, 0, f, a, 0, 0x3⟩, p3)
    else if op = M_JZ ∨ op = M_JNZ ∨ op = M_JMP ∨ op = M_DWHL ∨ op = M_WHIL then
      match m_vm_decode_svarint code p1 with
      | none => none
      | some (off, p2) => some (⟨op, pc, p2, 0, 0, 0, off, 0x8⟩, p2)
    else
      some (⟨op, pc, p1, 0, 0, 0, 0, 0⟩, p1)

/-- Tokenize loop at the head of `lower_structured`. -/
def lower_tokenize_go (code : List Nat) : Nat → Nat → List Tok → Option (List Tok)
  | 0, _, _ => none
  | fuel + 1, pc, acc =>
    if pc < code.length then
      match read_token code pc with
      | none => none
      | some (t, pc') => lower_tokenize_go code fuel pc' (acc ++ [t])
    else some acc

def lower_tokenize (code : List Nat) : Option (List Tok) :=
  lower_tokenize_go code (code.length + 1) 0 []

/-- Stack-origin range (`Range` in the C source). -/
structure LRange where
  start_idx : Int
  end_idx : Int
deriving DecidableEq, Repr

/-- The 256-slot `Range stack[STACK_SIZE]` with its signed top index; the
popped-but-still-present slots are observable through `tok_stack_peek`, so
the array is kept whole. -/
structure RStack where
  slots : Nat → LRange
  sp : Int

def rstack_init : RStack := ⟨fun _ => ⟨-1, -1⟩, -1⟩

/-- C `tok_stack_pop`. -/
def tok_stack_pop (st : RStack) : Option RStack :=
  if st.sp < 0 then none else some { st with sp := st.sp - 1 }

/-- C `tok_stack_peek`. -/
def tok_stack_peek (st : RStack) (sp : Int) : LRange :=
  if sp < 0 then ⟨-1, -1⟩ else st.slots sp.toNat

/-- C `tok_stack_push`. -/
def tok_stack_push (st : RStack) (s e : Int) : Option RStack :=
  if st.sp + 1 ≥ (STACK_SIZE : Int) then none
  else some ⟨Function.update st.slots (st.sp + 1).toNat ⟨s, e⟩, st.sp + 1⟩

/-- C `tok_stack_dup`. -/
def tok_stack_dup (st : RStack) : Option RStack :=
  if st.sp < 0 then none
  else if st.sp + 1 ≥ (STACK_SIZE : Int) then none
  else some ⟨Function.update st.slots (st.sp + 1).toNat (st.slots st.sp.toNat), st.sp + 1⟩

/-- C `tok_stack_swp`. -/
def tok_stack_swp (st : RStack) : Option RStack :=
  if st.sp < 1 then none
  else
    let a := st.slots st.sp.toNat
    let b := st.slots (st.sp - 1).toNat
    some { st with slots := Function.update (Function.update st.slots st.sp.toNat b) (st.sp - 1).toNat a }

/-- C `tok_stack_rot`. -/
def tok_stack_rot (st : RStack) : Option RStack :=
  if st.sp < 2 then none
  else
    let a := st.slots (st.sp - 2).toNat
    let b := st.slots (st.sp - 1).toNat
    let c := st.slots st.sp.toNat
    some { st with slots :=
      Function.update (Function.update (Function.update st.slots
        (st.sp - 2).toNat b) (st.sp - 1).toNat c) st.sp.toNat a }

/-- C `LoopInfo` (`type` is 1 for `WH`, 2 for `FR`). -/
structure LoopInfo where
  type : Nat
  loop_idx : Nat
  cond_start_idx : Int
  cond_end_idx : Int
  body_start_idx : Nat
  body_end_idx : Nat
  inc_start_idx : Int
  inc_end_idx : Int
deriving DecidableEq, Repr

/-- State threaded through pass 1: the range stack, the captured loops and
the `loop_at` map from token index to loop number (−1 when none). -/
structure Pass1State where
  rstack : RStack
  loops : List LoopInfo
  loop_at : Nat → Int

/-- Binary-op helper of the pass-1 stack simulation: pop two ranges, push
their merged origin. -/
def pass1_bin (st : RStack) (i : Nat) : Option RStack := do
  let b := tok_stack_peek st st.sp
  let st ← tok_stack_pop st
  let a := tok_stack_peek st st.sp
  let st ← tok_stack_pop st
  let s := if a.start_idx < b.start_idx then a.start_idx else b.start_idx
  tok_stack_push st s (i : Int)

/-- `CL`'s argument-popping loop in pass 1. -/
def pass1_cl_args (st : RStack) : Nat → Int → Option (RStack × Int)
  | 0, s => some (st, s)
  | k + 1, s =>
    let a := tok_stack_peek st st.sp
    match tok_stack_pop st with
    | none => none
    | some st' =>
      let s' := if a.start_idx < s then a.start_idx else s
      pass1_cl_args st' k s'

/-- The per-token stack-effect simulation of pass 1 (`m_vm.c` lines
443–532). -/
def pass1_sim (toks : List Tok) (i : Nat) (st : RStack) : Option RStack :=
  let t := toks.getD i tokDefault
  let op := t.op
  if op = M_LIT ∨ op = M_V ∨ op = M_IOR then
    tok_stack_push st (i : Int) (i : Int)
  else if op = M_LEN ∨ op = M_NEG ∨ op = M_NOT then
    match tok_stack_pop st with
    | none => none
    | some st' => tok_stack_push st' (i : Int) (i : Int)
  else if op = M_DUP then tok_stack_dup st
  else if op = M_DRP then tok_stack_pop st
  else if op = M_SWP then tok_stack_swp st
  else if op = M_ROT then tok_stack_rot st
  else if op = M_GET ∨ op = M_IDX then pass1_bin st i
  else if op = M_PUT ∨ op = M_STO then do
    let c := tok_stack_peek st st.sp
    let st ← tok_stack_pop st
    let b := tok_stack_peek st st.sp
    let st ← tok_stack_pop st
    let a := tok_stack_peek st st.sp
    let st ← tok_stack_pop st
    let s1 := if b.start_idx < a.start_idx then b.start_idx else a.start_idx
    let s2 := if c.start_idx < s1 then c.start_idx else s1
    tok_stack_push st s2 (i : Int)
  else if op = M_NEWARR ∨ op = M_ALLOC then do
    let a := tok_stack_peek st st.sp
    let st ← tok_stack_pop st
    tok_stack_push st a.start_idx (i : Int)
  else if op = M_FREE ∨ op = M_LET ∨ op = M_SET ∨ op = M_IOW then
    tok_stack_pop st
  else if op = M_ADD ∨ op = M_SUB ∨ op = M_MUL ∨ op = M_DIV ∨
      op = M_AND ∨ op = M_OR ∨ op = M_XOR ∨ op = M_SHL ∨ op = M_SHR ∨
      op = M_LT ∨ op = M_GT ∨ op = M_LE ∨ op = M_GE ∨ op = M_EQ ∨
      op = M_NEQ ∨ op = M_MOD then
    pass1_bin st i
  else if op = M_CL then
    match pass1_cl_args st t.imm_u32_b (i : Int) with
    | none => none
    | some (st', s) => tok_stack_push st' s (i : Int)
  else if op = M_RT then tok_stack_pop st
  else if op = M_IF ∨ op = M_WH ∨ op = M_FR ∨ op = M_JZ ∨ op = M_JNZ then
    tok_stack_pop st
  else some st

/-- The `B`/`E` matcher in the loop-capture step of pass 1 (token-level
depth scan starting at the `B` after the `WH`/`FR`). -/
def pass1_find_e (toks : List Tok) (count : Nat) : Nat → Nat → Int → Nat
  | 0, j, _ => j
  | rem + 1, j, depth =>
    if j < count then
      let op := (toks.getD j tokDefault).op
      let d2 := if op = M_B then depth + 1 else if op = M_E then depth - 1 else depth
      if d2 = 0 then j
      else pass1_find_e toks count rem (j + 1) d2
    else j

/-- One iteration of pass 1: stack-effect simulation, then `WH`/`FR` loop
capture (which re-reads the popped condition range one slot above the top). -/
def pass1_step (toks : List Tok) (count : Nat) (i : Nat) (st : Pass1State) :
    Option Pass1State :=
  match pass1_sim toks i st.rstack with
  | none => none
  | some rs =>
    let t := toks.getD i tokDefault
    if t.op = M_WH ∨ t.op = M_FR then
      let cond := tok_stack_peek rs (rs.sp + 1)
      if cond.start_idx < 0 ∨ cond.end_idx < 0 then none
      else if i + 1 ≥ count ∨ (toks.getD (i + 1) tokDefault).op ≠ M_B then none
      else
        let j := pass1_find_e toks count (count + 1) (i + 1) 0
        if j ≥ count ∨ (toks.getD j tokDefault).op ≠ M_E then none
        else
          let isFR := t.op = M_FR
          let hasInc := isFR ∧ cond.end_idx + 1 ≤ (i : Int) - 1
          let info : LoopInfo :=
            ⟨if t.op = M_WH then 1 else 2, i, cond.start_idx, cond.end_idx,
             i + 2, j,
             if hasInc then cond.end_idx + 1 else -1,
             if hasInc then (i : Int) - 1 else -1⟩
          some ⟨rs, st.loops ++ [info],
            Function.update st.loop_at i (st.loops.length : Int)⟩
    else some { st with rstack := rs }

/-- Pass-1 loop over all tokens. -/
def lower_pass1_go (toks : List Tok) (count : Nat) :
    Nat → Nat → Pass1State → Option Pass1State
  | 0, _, st => some st
  | fuel + 1, i, st =>
    if i < count then
      match pass1_step toks count i st with
      | none => none
      | some st' => lower_pass1_go toks count fuel (i + 1) st'
    else some st

/-- C `OutOpType`. -/
inductive OutOpType where
  | OT_NONE
  | OT_U32
  | OT_U32_U32
  | OT_U64
  | OT_JUMP_ORIG
  | OT_JUMP_OUT
deriving DecidableEq, Repr

/-- C `OutTok`. -/
structure OutTok where
  op : Nat
  type : OutOpType
  u32 : Nat
  u32_b : Nat
  u64 : Nat
  target_orig : Int
  target_out : Int
deriving DecidableEq, Repr

def outTokDefault : OutTok := ⟨0, OutOpType.OT_NONE, 0, 0, 0, 0, 0⟩

/-- Conversion of an input token to an output token (the thrice-repeated
emission block of pass 2); jump targets become original token indices
`k + 1 + imm_s32`. -/
def outtok_of_tok (t : Tok) (k : Nat) : OutTok :=
  if t.imm_mask &&& 0x4 ≠ 0 then ⟨t.op, OutOpType.OT_U64, 0, 0, t.imm_u64, 0, 0⟩
  else if t.imm_mask &&& 0x3 = 0x3 then
    ⟨t.op, OutOpType.OT_U32_U32, t.imm_u32, t.imm_u32_b, 0, 0, 0⟩
  else if t.imm_mask &&& 0x1 ≠ 0 then ⟨t.op, OutOpType.OT_U32, t.imm_u32, 0, 0, 0, 0⟩
  else if t.imm_mask &&& 0x8 ≠ 0 then
    ⟨t.op, OutOpType.OT_JUMP_ORIG, 0, 0, 0, ((k : Int) + 1) + t.imm_s32, 0⟩
  else ⟨t.op, OutOpType.OT_NONE, 0, 0, 0, 0, 0⟩

def loopInfoDefault : LoopInfo := ⟨0, 0, -1, -1, 0, 0, -1, -1⟩

/-- Pass-2 output state: emitted tokens plus the original-index →
output-index map. -/
structure Pass2State where
  out : List OutTok
  orig_to_out : Nat → Int

/-- Emit the tokens `[k, kend)` verbatim, recording `orig_to_out`. -/
def pass2_emit_range (toks : List Tok) : Nat → Nat → Nat → Pass2State → Pass2State
  | 0, _, _, st => st
  | fuel + 1, k, kend, st =>
    if k < kend then
      let ot := outtok_of_tok (toks.getD k tokDefault) k
      let st' : Pass2State :=
        ⟨st.out ++ [ot], Function.update st.orig_to_out k (st.out.length : Int)⟩
      pass2_emit_range toks fuel (k + 1) kend st'
    else st

/-- Pass 2 (`m_vm.c` lines 611–696): for each captured loop emit
`JZ; body; (FR increment); JMP cond` with the `JZ` patched to one past the
back edge; other unskipped tokens are emitted verbatim. -/
def lower_pass2_go (toks : List Tok) (count : Nat) (loops : List LoopInfo)
    (loop_at : Nat → Int) (skip : Nat → Bool) :
    Nat → Nat → Pass2State → Option Pass2State
  | 0, _, st => some st
  | fuel + 1, i, st =>
    if i < count then
      let li_idx := loop_at i
      if li_idx ≥ 0 then
        let li := loops.getD li_idx.toNat loopInfoDefault
        let cond_out := st.orig_to_out li.cond_start_idx.toNat
        if cond_out < 0 then none
        else
          let jz_index := st.out.length
          let st : Pass2State :=
            { st with out := st.out ++ [⟨M_JZ, OutOpType.OT_JUMP_OUT, 0, 0, 0, 0, 0⟩] }
          let st := pass2_emit_range toks (count + 1) li.body_start_idx li.body_end_idx st
          let st :=
            if li.type = 2 ∧ 0 ≤ li.inc_start_idx ∧ li.inc_start_idx ≤ li.inc_end_idx then
              pass2_emit_range toks (count + 1) li.inc_start_idx.toNat
                (li.inc_end_idx.toNat + 1) st
            else st
          let st : Pass2State :=
            { st with out := st.out ++ [⟨M_JMP, OutOpType.OT_JUMP_OUT, 0, 0, 0, 0, cond_out⟩] }
          let patched : OutTok :=
            ⟨M_JZ, OutOpType.OT_JUMP_OUT, 0, 0, 0, 0, (st.out.length : Int)⟩
          let st : Pass2State := { st with out := st.out.set jz_index patched }
          lower_pass2_go toks count loops loop_at skip fuel (li.body_end_idx + 1) st
      else if skip i then lower_pass2_go toks count loops loop_at skip fuel (i + 1) st
      else
        let ot := outtok_of_tok (toks.getD i tokDefault) i
        let st' : Pass2State :=
          ⟨st.out ++ [ot], Function.update st.orig_to_out i (st.out.length : Int)⟩
        lower_pass2_go toks count loops loop_at skip fuel (i + 1) st'
    else some st

/-- Output encoding loop of `lower_structured` (`m_vm.c` lines 698–734). -/
def lower_encode_go (toks_count : Nat) (orig_to_out : Nat → Int)
    (out : List OutTok) : Nat → Nat → List Nat → Option (List Nat)
  | 0, _, acc => some acc
  | fuel + 1, i, acc =>
    if i < out.length then
      let ot := out.getD i outTokDefault
      let acc := acc ++ m_vm_encode_uvarint ot.op
      let operands : Option (List Nat) :=
        match ot.type with
        | OutOpType.OT_U32 => some (m_vm_encode_uvarint ot.u32)
        | OutOpType.OT_U32_U32 =>
          some (m_vm_encode_uvarint ot.u32 ++ m_vm_encode_uvarint ot.u32_b)
        | OutOpType.OT_U64 => some (m_vm_encode_uvarint64 ot.u64)
        | OutOpType.OT_JUMP_ORIG =>
          let target_out :=
            if 0 ≤ ot.target_orig ∧ ot.target_orig < (toks_count : Int) then
              orig_to_out ot.target_orig.toNat
            else -1
          if target_out < 0 then none
          else some (m_vm_encode_uvarint (m_vm_encode_zigzag (target_out - ((i : Int) + 1))))
        | OutOpType.OT_JUMP_OUT =>
          some (m_vm_encode_uvarint (m_vm_encode_zigzag (ot.target_out - ((i : Int) + 1))))
        | OutOpType.OT_NONE => some []
      match operands with
      | none => none
      | some bs => lower_encode_go toks_count orig_to_out out fuel (i + 1) (acc ++ bs)
    else some acc

/-- C `lower_structured`: tokenize, capture loops, and — only when at least
one loop was found — rebuild the program; otherwise the program is returned
unchanged.  `none` is the C `false` (the loader reports `BadEncoding`). -/
def lower_structured (code : List Nat) : Option (List Nat) :=
  if code.length = 0 then none
  else
    match lower_tokenize code with
    | none => none
    | some toks =>
      let count := toks.length
      match lower_pass1_go toks count (count + 1) 0 ⟨rstack_init, [], fun _ => -1⟩ with
      | none => none
      | some st1 =>
        if st1.loops.length = 0 then some code
        else
          let skip : Nat → Bool := fun k =>
            st1.loops.any (fun li => li.type = 2 ∧ 0 ≤ li.inc_start_idx ∧
              li.inc_start_idx ≤ li.inc_end_idx ∧ li.inc_start_idx ≤ (k : Int) ∧
              (k : Int) ≤ li.inc_end_idx)
          match lower_pass2_go toks count st1.loops st1.loop_at skip (count + 1) 0
              ⟨[], fun _ => -1⟩ with
          | none => none
          | some st2 =>
            lower_encode_go count st2.orig_to_out st2.out (st2.out.length + 1) 0 []

/-! ## Loader (`m_vm_init`, `m_vm.c` lines 2186–2229) and limit setters -/

/-- The zeroed VM produced by the `memset`/field-initialisation prefix of
C `m_vm_init` (before lowering); the process-wide breakpoint table is
modelled from the empty process-initial state. -/
def m_vm_zero (code : List Nat) : M_VM :=
  { code := code
    code_len := (code.length : Int)
    pc := 0
    sp := -1
    stack := fun _ => MValue.int 0
    rp := -1
    ret_stack := fun _ => 0
    locals := fun _ => MValue.int 0
    local_count := 0
    frame_sp := -1
    locals_frames := fun _ _ => MValue.int 0
    globals := fun _ => MValue.int 0
    caps := caps_clear
    running := false
    authorized := false
    fault := M_Fault.NONE
    last_pc := -1
    last_op := 0
    last_op_index := -1
    steps := 0
    step_limit := MAX_STEPS
    gas := 0
    gas_limit := 0
    call_depth := 0
    call_depth_limit := (CALL_DEPTH_MAX : Int)
    stack_limit := (STACK_SIZE : Int)
    single_step := false
    token_offsets := none
    token_count := 0
    byte_to_token := none
    heap := fun _ => none
    alloc_list := []
    next_ptr := 0
    alloc_count := 0
    gc_enabled := false
    gc_threshold := 100
    breakpoints := []
    io_log := [] }

/-- C `m_vm_init`: attach the code, lower structured loops (swapping in the
lowered buffer), then build the token maps; a failure of either stage sets
`BadEncoding`. -/
def m_vm_init (code : List Nat) : M_VM :=
  let v := m_vm_zero code
  match lower_structured code with
  | none => { v with fault := M_Fault.BAD_ENCODING }
  | some newCode =>
    let v := { v with code := newCode, code_len := (newCode.length : Int) }
    match build_token_map newCode with
    | none => { v with fault := M_Fault.BAD_ENCODING }
    | some (offs, b2t, cnt) =>
      { v with token_offsets := some offs, byte_to_token := some b2t,
               token_count := (cnt : Int) }

/-- C `m_vm_set_step_limit`. -/
def m_vm_set_step_limit (v : M_VM) (limit : Nat) : M_VM := { v with step_limit := limit }

/-- C `m_vm_set_gas_limit`. -/
def m_vm_set_gas_limit (v : M_VM) (limit : Nat) : M_VM := { v with gas_limit := limit }

/-- C `m_vm_set_call_depth_limit` (clamped to `[1, CALL_DEPTH_MAX]`). -/
def m_vm_set_call_depth_limit (v : M_VM) (limit : Int) : M_VM :=
  let l1 := if limit < 1 then 1 else limit
  let l2 := if l1 > (CALL_DEPTH_MAX : Int) then (CALL_DEPTH_MAX : Int) else l1
  { v with call_depth_limit := l2 }

/-- C `m_vm_set_stack_limit` (clamped to `[0, STACK_SIZE]`). -/
def m_vm_set_stack_limit (v : M_VM) (limit : Int) : M_VM :=
  let l1 := if limit < 0 then 0 else limit
  let l2 := if l1 > (STACK_SIZE : Int) then (STACK_SIZE : Int) else l1
  { v with stack_limit := l2 }

/-! ## Direct attachment (the spec's "simulate P directly") and claim C2 -/

/-- A host providing no callbacks. -/
def hostNone : Host := ⟨false, none, false, false⟩

/-- A VM with `code` attached without the lowering pass: the comparison
object of the spec's "simulating P directly with the interpreter's
structured WH/FR handlers" (the token maps are still built, as every
loaded program has them). -/
def vm_direct (code : List Nat) : Option M_VM :=
  match build_token_map code with
  | none => none
  | some (offs, b2t, cnt) =>
    some { m_vm_zero code with
           token_offsets := some offs
           byte_to_token := some b2t
           token_count := (cnt : Int) }

/-- The pass-1 analysis state `lower_structured` computes before deciding
whether to rewrite. -/
def lower_pass1_result (code : List Nat) : Option Pass1State :=
  match lower_tokenize code with
  | none => none
  | some toks =>
    lower_pass1_go toks toks.length (toks.length + 1) 0 ⟨rstack_init, [], fun _ => -1⟩

/-- The claim-C2 counterexample program, as tokens:
`LIT 2; LET 0; V 0; WH; B; B; V 0; LIT 1; SUB; LET 0; E; E; V 0; HALT`
(`LIT` operands are zigzag-encoded). -/
def c2prog : List Nat :=
  [30, 4, 32, 0, 31, 0, 13, 10, 10, 31, 0, 30, 2, 51, 32, 0, 11, 11, 31, 0, 82]

/-- The loaded `JMP -1` program with `m_vm_set_step_limit 1000`. -/
def c7vm : M_VM := m_vm_set_step_limit (m_vm_init [100, 1]) 1000

/-- The state of the `JMP -1` run at loop entry, written out literally. -/
def c7run0 : M_VM :=
  { code := [100, 1], code_len := 2, pc := 0, sp := -1,
    stack := fun _ => MValue.int 0, rp := -1, ret_stack := fun _ => 0,
    locals := fun _ => MValue.int 0, local_count := 0, frame_sp := -1,
    locals_frames := fun _ _ => MValue.int 0, globals := fun _ => MValue.int 0,
    caps := caps_clear, running := true, authorized := false,
    fault := M_Fault.NONE, last_pc := -1, last_op := 0, last_op_index := -1,
    steps := 0, step_limit := 1000, gas := 0, gas_limit := 0, call_depth := 0,
    call_depth_limit := 32, stack_limit := 256, single_step := false,
    token_offsets := some [0], token_count := 1, byte_to_token := some [0, -1],
    heap := fun _ => none, alloc_list := [], next_ptr := 0, alloc_count := 0,
    gc_enabled := false, gc_threshold := 100, breakpoints := [], io_log := [] }

def c7s (k : Nat) : M_VM :=
  { code := [100, 1], code_len := 2, pc := 0, sp := -1,
    stack := fun _ => MValue.int 0, rp := -1, ret_stack := fun _ => 0,
    locals := fun _ => MValue.int 0, local_count := 0, frame_sp := -1,
    locals_frames := fun _ _ => MValue.int 0, globals := fun _ => MValue.int 0,
    caps := caps_clear, running := true, authorized := false,
    fault := M_Fault.NONE, last_pc := 0, last_op := 100, last_op_index := 0,
    steps := k, step_limit := 1000, gas := 0, gas_limit := 0, call_depth := 0,
    call_depth_limit := 32, stack_limit := 256, single_step := false,
    token_offsets := some [0], token_count := 1, byte_to_token := some [0, -1],
    heap := fun _ => none, alloc_list := [], next_ptr := 0, alloc_count := 0,
    gc_enabled := false, gc_threshold := 100, breakpoints := [], io_log := [] }

/-- A host with every callback installed. -/
def hostFull : Host := ⟨true, some (fun _ => MValue.int 7), true, true⟩

/-- A state about to execute the operand of `IOW 5` with an empty stack. -/
def c1wit : M_VM := { m_vm_zero [70, 5, 82] with pc := 1 }

/-- The `LIT 10; LIT 0; DIV; HALT` program at run entry. -/
def c5v0 : M_VM := m_vm_run_init (m_vm_init [30, 20, 30, 0, 53, 82])

/-- A two-value stack whose top is the integer 0. -/
def c5wit : M_VM := { m_vm_zero [] with sp := 1 }

/-- The varints at `p` decode consecutively to the values `ts`, ending at `q`. -/
def varint_cover (code : List Nat) : Nat → List Nat → Nat → Bool
  | p, [], q => p == q
  | p, t :: ts, q =>
    match m_vm_decode_uvarint code p with
    | some (v, next) => v == t && varint_cover code next ts q
    | none => false

/-- Depth of the block scan across the values `ts`, `none` if it would stop
(hit zero) inside. -/
def depth_runs : List Nat → Int → Option Int
  | [], d => some d
  | t :: ts, d =>
    let d2 := if t = M_B then d + 1 else if t = M_E then d - 1 else d
    if d2 > 0 then depth_runs ts d2 else none

/-- The claim-C3 witness program about to dispatch `IF` (pc past the opcode). -/
def c3wit : M_VM := { m_vm_zero [30, 0, 12, 10, 30, 4, 11, 10, 30, 14, 11, 82] with sp := 0, pc := 3 }
/-- The claim-C3 counterexample program about to dispatch `IF`. -/
def c3cex : M_VM := { m_vm_zero [30, 0, 12, 10, 30, 10, 11, 10, 30, 14, 11, 82] with sp := 0, pc := 3 }

theorem enc_go_stable (fuel : Nat) :
    ∀ n ≤ fuel, enc_uvarint_go fuel n = enc_uvarint_go (fuel + 1) n := by
  induction fuel with
  | zero =>
    intro n hn
    interval_cases n
    rfl
  | succ fuel ih =>
    intro n hn
    show (if n ≤ 127 then [n] else (n % 128 + 128) :: enc_uvarint_go fuel (n / 128)) =
      (if n ≤ 127 then [n] else (n % 128 + 128) :: enc_uvarint_go (fuel + 1) (n / 128))
    by_cases hb : n ≤ 127
    · simp [hb]
    · simp only [hb, if_false]
      have hlt := Nat.div_lt_self (show 0 < n by omega) (show 1 < 128 by omega)
      rw [ih (n / 128) (by omega)]

theorem enc_go_mono (k : Nat) :
    ∀ fuel n, n ≤ fuel → enc_uvarint_go fuel n = enc_uvarint_go (fuel + k) n := by
  induction k with
  | zero => intro fuel n _; rfl
  | succ k ih =>
    intro fuel n hn
    rw [ih fuel n hn]
    exact enc_go_stable (fuel + k) n (by omega)

theorem enc_go_fuel (f1 f2 n : Nat) (h1 : n ≤ f1) (h2 : n ≤ f2) :
    enc_uvarint_go f1 n = enc_uvarint_go f2 n := by
  rcases le_total f1 f2 with h | h
  · obtain ⟨k, rfl⟩ := Nat.exists_eq_add_of_le h
    exact enc_go_mono k f1 n h1
  · obtain ⟨k, rfl⟩ := Nat.exists_eq_add_of_le h
    exact (enc_go_mono k f2 n h2).symm

/-- The C recursion equation of `m_vm_encode_uvarint`. -/
theorem m_vm_encode_uvarint_unfold (n : Nat) :
    m_vm_encode_uvarint n =
      if n ≤ 127 then [n] else (n % 128 + 128) :: m_vm_encode_uvarint (n / 128) := by
  rw [m_vm_encode_uvarint]
  cases n with
  | zero => rfl
  | succ m =>
    show (if m + 1 ≤ 127 then [m + 1]
        else ((m + 1) % 128 + 128) :: enc_uvarint_go m ((m + 1) / 128)) = _
    by_cases hb : m + 1 ≤ 127
    · simp [hb]
    · simp only [hb, if_false]
      have hlt := Nat.div_lt_self (show 0 < m + 1 by omega) (show 1 < 128 by omega)
      rw [m_vm_encode_uvarint, enc_go_fuel m ((m + 1) / 128) ((m + 1) / 128)
        (by omega) le_rfl]

/-- The C recursion equation of `m_vm_encode_uvarint64`. -/
theorem m_vm_encode_uvarint64_unfold (n : Nat) :
    m_vm_encode_uvarint64 n =
      if n ≤ 127 then [n] else (n % 128 + 128) :: m_vm_encode_uvarint64 (n / 128) :=
  m_vm_encode_uvarint_unfold n

theorem getD_at_append (pre : List Nat) (x : Nat) (post : List Nat) :
    (pre ++ x :: post).getD pre.length 0 = x := by
  induction pre with
  | nil => rfl
  | cons a l ih => simpa using ih

theorem xor_two_pow_sub_one (n : Nat) :
    ∀ x, x < 2 ^ n → x ^^^ (2 ^ n - 1) = 2 ^ n - 1 - x := by
  induction n with
  | zero => intro x hx; interval_cases x; decide
  | succ n ih =>
    intro x hx
    have hpow : 2 ^ (n + 1) = 2 * 2 ^ n := by ring
    have h1 : (1 : Nat) ≤ 2 ^ n := Nat.one_le_two_pow
    have hdiv : (x ^^^ (2 ^ (n + 1) - 1)) / 2 = x / 2 ^^^ (2 ^ (n + 1) - 1) / 2 :=
      Nat.xor_div_two
    have hhalf : (2 ^ (n + 1) - 1) / 2 = 2 ^ n - 1 := by omega
    rw [hhalf] at hdiv
    have hxd : x / 2 < 2 ^ n := by omega
    have hih := ih (x / 2) hxd
    rw [hih] at hdiv
    have hone : (2 ^ (n + 1) - 1) % 2 = 1 := by omega
    have hmod : (x ^^^ (2 ^ (n + 1) - 1)) % 2 = 1 ↔
        ¬(x % 2 = 1 ↔ (2 ^ (n + 1) - 1) % 2 = 1) := Nat.xor_mod_two_eq_one
    rw [hone] at hmod
    have hy2 : (x ^^^ (2 ^ (n + 1) - 1)) % 2 < 2 := Nat.mod_lt _ (by omega)
    have hy := Nat.div_add_mod (x ^^^ (2 ^ (n + 1) - 1)) 2
    have hx2 : x % 2 = 0 ∨ x % 2 = 1 := by omega
    rcases hx2 with hx2 | hx2
    · have hm : (x ^^^ (2 ^ (n + 1) - 1)) % 2 = 1 := by rw [hmod]; omega
      omega
    · have hm : ¬((x ^^^ (2 ^ (n + 1) - 1)) % 2 = 1) := by
        rw [hmod]; simp [hx2]
      omega

theorem or_low_add {res n shift : Nat} (h : res < 2 ^ shift) :
    res ||| n <<< shift = res + n * 2 ^ shift := by
  rw [Nat.shiftLeft_eq, Nat.or_comm, Nat.mul_comm n (2 ^ shift),
    ← Nat.mul_add_lt_is_or h n]
  ring

/-- Positional decoding of a minimally encoded varint embedded in a larger
byte buffer, with an arbitrary accumulator: the loop returns the accumulated
value and stops exactly after the encoded bytes. -/
theorem dec_loop_enc (w : Nat) :
    ∀ fuel n pre post res shift,
      res < 2 ^ shift → n < 2 ^ (w - shift) → shift ≤ w →
      (m_vm_encode_uvarint n).length ≤ fuel →
      dec_uvarint_loop w (pre ++ m_vm_encode_uvarint n ++ post)
          (pre ++ m_vm_encode_uvarint n ++ post).length fuel
          pre.length res shift =
        some (res + n * 2 ^ shift, pre.length + (m_vm_encode_uvarint n).length) := by
  intro fuel
  induction fuel with
  | zero =>
    intro n pre post res shift hres hn hsw hfuel
    rw [m_vm_encode_uvarint_unfold] at hfuel
    by_cases h : n ≤ 127 <;> simp [h] at hfuel
  | succ fuel ih =>
    intro n pre post res shift hres hn hsw hfuel
    by_cases hbase : n ≤ 127
    · have henc : m_vm_encode_uvarint n = [n] := by rw [m_vm_encode_uvarint_unfold]; simp [hbase]
      rw [henc]
      have hcons : pre ++ [n] ++ post = pre ++ n :: post := by simp
      have hget : (pre ++ [n] ++ post).getD pre.length 0 = n := by
        rw [hcons]; exact getD_at_append pre n post
      have hlt : pre.length < (pre ++ [n] ++ post).length := by
        simp
      rw [dec_uvarint_loop, if_pos hlt, hget]
      have hb256 : n % 256 = n := Nat.mod_eq_of_lt (by omega)
      have hb128 : n % 128 = n := Nat.mod_eq_of_lt (by omega)
      rw [hb256, if_pos (show n < 128 by omega), hb128]
      have hor : res ||| n <<< shift = res + n * 2 ^ shift := or_low_add hres
      have hsum : res + n * 2 ^ shift < 2 ^ w := by
        have h1 : (2 : Nat) ^ w = 2 ^ shift * 2 ^ (w - shift) := by
          rw [← pow_add]; congr 1; omega
        calc res + n * 2 ^ shift < 2 ^ shift + n * 2 ^ shift := by omega
          _ = (n + 1) * 2 ^ shift := by ring
          _ ≤ 2 ^ (w - shift) * 2 ^ shift := Nat.mul_le_mul_right _ (by omega)
          _ = 2 ^ w := by rw [h1]; ring
      have hmod : (res ||| n <<< shift) % 2 ^ w = res + n * 2 ^ shift := by
        rw [hor]; exact Nat.mod_eq_of_lt hsum
      rw [hmod]
      simp
    · have henc : m_vm_encode_uvarint n =
          (n % 128 + 128) :: m_vm_encode_uvarint (n / 128) := by
        rw [m_vm_encode_uvarint_unfold]; simp [hbase]
      have hws : 128 ≤ 2 ^ (w - shift) := by omega
      have hws8 : 8 ≤ w - shift := by
        by_contra hc
        have h7 : w - shift ≤ 7 := by omega
        have hle : (2 : Nat) ^ (w - shift) ≤ 2 ^ 7 := Nat.pow_le_pow_right (by omega) h7
        norm_num at hle
        omega
      set b := n % 128 + 128 with hb
      have hcons : pre ++ m_vm_encode_uvarint n ++ post =
          pre ++ b :: (m_vm_encode_uvarint (n / 128) ++ post) := by
        rw [henc]; simp
      have hget : (pre ++ m_vm_encode_uvarint n ++ post).getD pre.length 0 = b := by
        rw [hcons]; exact getD_at_append pre b _
      have hlt : pre.length < (pre ++ m_vm_encode_uvarint n ++ post).length := by
        rw [henc]; simp
      rw [dec_uvarint_loop, if_pos hlt, hget]
      have hb256 : b % 256 = b := Nat.mod_eq_of_lt (by omega)
      have hbge : ¬(b < 128) := by omega
      have hguard : ¬(shift + 7 ≥ w) := by omega
      have hb128 : b % 128 = n % 128 := by omega
      rw [hb256, if_neg hbge, if_neg hguard, hb128]
      have hor : res ||| (n % 128) <<< shift = res + n % 128 * 2 ^ shift :=
        or_low_add hres
      have h37 : (2 : Nat) ^ (shift + 7) = 2 ^ shift * 128 := by
        rw [pow_add]; norm_num
      have h2b : n % 128 * 2 ^ shift ≤ 127 * 2 ^ shift :=
        Nat.mul_le_mul_right _ (by omega)
      have hres2lt : res + n % 128 * 2 ^ shift < 2 ^ (shift + 7) := by omega
      have hltw : res + n % 128 * 2 ^ shift < 2 ^ w := by
        have hle : (2 : Nat) ^ (shift + 7) ≤ 2 ^ w :=
          Nat.pow_le_pow_right (by omega) (by omega)
        omega
      have hmod : (res ||| (n % 128) <<< shift) % 2 ^ w = res + n % 128 * 2 ^ shift := by
        rw [hor]; exact Nat.mod_eq_of_lt hltw
      have hfuel' : (m_vm_encode_uvarint (n / 128)).length ≤ fuel := by
        rw [henc] at hfuel; simp at hfuel; omega
      have hndiv : n / 128 < 2 ^ (w - (shift + 7)) := by
        have hsplit : (2 : Nat) ^ (w - shift) = 128 * 2 ^ (w - (shift + 7)) := by
          have hexp : w - shift = 7 + (w - (shift + 7)) := by omega
          rw [hexp, pow_add]; norm_num
        exact Nat.div_lt_of_lt_mul (by omega)
      have hassoc : pre ++ m_vm_encode_uvarint n ++ post =
          (pre ++ [b]) ++ m_vm_encode_uvarint (n / 128) ++ post := by
        rw [henc]; simp
      have hlen : ((pre ++ [b]) : List Nat).length = pre.length + 1 := by simp
      have hih := ih (n / 128) (pre ++ [b]) post (res + n % 128 * 2 ^ shift)
        (shift + 7) hres2lt hndiv (by omega) hfuel'
      rw [hlen] at hih
      rw [hmod]
      rw [hassoc]
      rw [hih]
      have harith : res + n % 128 * 2 ^ shift + n / 128 * 2 ^ (shift + 7) =
          res + n * 2 ^ shift := by
        have h4 : n % 128 + 128 * (n / 128) = n := Nat.mod_add_div n 128
        calc res + n % 128 * 2 ^ shift + n / 128 * 2 ^ (shift + 7)
            = res + n % 128 * 2 ^ shift + n / 128 * (2 ^ shift * 128) := by rw [h37]
          _ = res + (n % 128 + 128 * (n / 128)) * 2 ^ shift := by ring
          _ = res + n * 2 ^ shift := by rw [h4]
      have hlen2 : pre.length + 1 + (m_vm_encode_uvarint (n / 128)).length =
          pre.length + (m_vm_encode_uvarint n).length := by
        rw [henc]; simp; omega
      rw [harith, hlen2]

/-- Round trip of the 32-bit unsigned varint codec, with the exact consumed
length. -/
theorem uvarint_roundtrip (n : Nat) (h : n < 2 ^ 32) :
    m_vm_decode_uvarint (m_vm_encode_uvarint n) 0 =
      some (n, (m_vm_encode_uvarint n).length) := by
  have key := dec_loop_enc 32 ((m_vm_encode_uvarint n).length + 1) n [] [] 0 0
    (by norm_num) (by simpa using h) (by omega) (by omega)
  simpa [m_vm_decode_uvarint] using key

/-- The 64-bit encoder computes the same byte list as the 32-bit one (the C
bodies are identical). -/
theorem encode_uvarint64_eq (n : Nat) :
    m_vm_encode_uvarint64 n = m_vm_encode_uvarint n := rfl

/-- Round trip of the 64-bit unsigned varint codec.  The 64-bit encoder has
the same equations as the 32-bit one, so the generic lemma applies. -/
theorem uvarint64_roundtrip (n : Nat) (h : n < 2 ^ 64) :
    m_vm_decode_uvarint64 (m_vm_encode_uvarint64 n) 0 =
      some (n, (m_vm_encode_uvarint64 n).length) := by
  rw [encode_uvarint64_eq]
  have key := dec_loop_enc 64 ((m_vm_encode_uvarint n).length + 1) n [] [] 0 0
    (by norm_num) (by simpa using h) (by omega) (by omega)
  simpa [m_vm_decode_uvarint64] using key

theorem zigzag_roundtrip (k : Int) (hlo : -2 ^ 31 ≤ k) (hhi : k < 2 ^ 31) :
    m_vm_decode_zigzag (m_vm_encode_zigzag k) = k := by
  rcases le_or_lt 0 k with hk | hk
  · have hrep : k % 2 ^ 32 = k := Int.emod_eq_of_lt hk (by omega)
    have hu : u32ofI32 k = k.toNat := by rw [u32ofI32, hrep]
    have htn : (k.toNat : Int) = k := Int.toNat_of_nonneg hk
    have htlt : k.toNat < 2 ^ 31 := by omega
    have hneg : ¬(k < 0) := by omega
    have henc : m_vm_encode_zigzag k = 2 * k.toNat := by
      rw [m_vm_encode_zigzag, hu, if_neg hneg]
      rw [Nat.mod_eq_of_lt (by omega)]
      simp
    rw [henc, m_vm_decode_zigzag]
    have h1 : 2 * k.toNat % 2 ^ 32 = 2 * k.toNat := Nat.mod_eq_of_lt (by omega)
    have h2 : (2 * k.toNat) >>> 1 = k.toNat := by
      rw [Nat.shiftRight_eq_div_pow]; omega
    have h3 : 2 * k.toNat % 2 = 0 := by omega
    rw [h1, h2, h3]
    simp only [if_neg (by omega : ¬(0 : Nat) = 1)]
    rw [Nat.xor_zero, i32ofU32]
    rw [Nat.mod_eq_of_lt (by omega), if_pos htlt]
    exact htn
  · have hrep : k % 2 ^ 32 = k + 2 ^ 32 := by
      have : k % 2 ^ 32 = (k + 2 ^ 32) % 2 ^ 32 := by omega
      rw [this]
      exact Int.emod_eq_of_lt (by omega) (by omega)
    set r := (k + 2 ^ 32).toNat with hr
    have hri : ((r : Int)) = k + 2 ^ 32 := Int.toNat_of_nonneg (by omega)
    have hrlo : 2 ^ 31 ≤ r := by omega
    have hrhi : r < 2 ^ 32 := by omega
    have hu : u32ofI32 k = r := by rw [u32ofI32, hrep]
    have hmul : 2 * r % 2 ^ 32 = 2 * r - 2 ^ 32 := by omega
    have hlt : 2 * r - 2 ^ 32 < 2 ^ 32 := by omega
    have hxor : (2 * r - 2 ^ 32) ^^^ (2 ^ 32 - 1) = 2 ^ 32 - 1 - (2 * r - 2 ^ 32) :=
      xor_two_pow_sub_one 32 _ hlt
    have henc : m_vm_encode_zigzag k = 2 ^ 32 - 1 - (2 * r - 2 ^ 32) := by
      rw [m_vm_encode_zigzag, hu, if_pos hk, hmul, hxor]
    set e := 2 ^ 32 - 1 - (2 * r - 2 ^ 32) with he
    have heodd : e % 2 = 1 := by omega
    have helt : e < 2 ^ 32 := by omega
    have hehalf : e >>> 1 = 2 ^ 32 - 1 - r := by
      rw [Nat.shiftRight_eq_div_pow]; omega
    rw [henc, m_vm_decode_zigzag]
    rw [Nat.mod_eq_of_lt helt, hehalf, if_pos heodd]
    have hxor2 : (2 ^ 32 - 1 - r) ^^^ (2 ^ 32 - 1) = 2 ^ 32 - 1 - (2 ^ 32 - 1 - r) :=
      xor_two_pow_sub_one 32 _ (by omega)
    rw [hxor2]
    have : 2 ^ 32 - 1 - (2 ^ 32 - 1 - r) = r := by omega
    rw [this, i32ofU32, Nat.mod_eq_of_lt hrhi]
    simp only [if_neg (by omega : ¬r < 2 ^ 31)]
    omega

theorem zigzag64_roundtrip (k : Int) (hlo : -2 ^ 63 ≤ k) (hhi : k < 2 ^ 63) :
    m_vm_decode_zigzag64 (m_vm_encode_zigzag64 k) = k := by
  rcases le_or_lt 0 k with hk | hk
  · have hrep : k % 2 ^ 64 = k := Int.emod_eq_of_lt hk (by omega)
    have hu : u64ofI64 k = k.toNat := by rw [u64ofI64, hrep]
    have htn : (k.toNat : Int) = k := Int.toNat_of_nonneg hk
    have htlt : k.toNat < 2 ^ 63 := by omega
    have hneg : ¬(k < 0) := by omega
    have henc : m_vm_encode_zigzag64 k = 2 * k.toNat := by
      rw [m_vm_encode_zigzag64, hu, if_neg hneg]
      rw [Nat.mod_eq_of_lt (by omega)]
      simp
    rw [henc, m_vm_decode_zigzag64]
    have h1 : 2 * k.toNat % 2 ^ 64 = 2 * k.toNat := Nat.mod_eq_of_lt (by omega)
    have h2 : (2 * k.toNat) >>> 1 = k.toNat := by
      rw [Nat.shiftRight_eq_div_pow]; omega
    have h3 : 2 * k.toNat % 2 = 0 := by omega
    rw [h1, h2, h3]
    simp only [if_neg (by omega : ¬(0 : Nat) = 1)]
    rw [Nat.xor_zero, i64ofU64]
    rw [Nat.mod_eq_of_lt (by omega), if_pos htlt]
    exact htn
  · have hrep : k % 2 ^ 64 = k + 2 ^ 64 := by
      have : k % 2 ^ 64 = (k + 2 ^ 64) % 2 ^ 64 := by omega
      rw [this]
      exact Int.emod_eq_of_lt (by omega) (by omega)
    set r := (k + 2 ^ 64).toNat with hr
    have hri : ((r : Int)) = k + 2 ^ 64 := Int.toNat_of_nonneg (by omega)
    have hrlo : 2 ^ 63 ≤ r := by omega
    have hrhi : r < 2 ^ 64 := by omega
    have hu : u64ofI64 k = r := by rw [u64ofI64, hrep]
    have hmul : 2 * r % 2 ^ 64 = 2 * r - 2 ^ 64 := by omega
    have hlt : 2 * r - 2 ^ 64 < 2 ^ 64 := by omega
    have hxor : (2 * r - 2 ^ 64) ^^^ (2 ^ 64 - 1) = 2 ^ 64 - 1 - (2 * r - 2 ^ 64) :=
      xor_two_pow_sub_one 64 _ hlt
    have henc : m_vm_encode_zigzag64 k = 2 ^ 64 - 1 - (2 * r - 2 ^ 64) := by
      rw [m_vm_encode_zigzag64, hu, if_pos hk, hmul, hxor]
    set e := 2 ^ 64 - 1 - (2 * r - 2 ^ 64) with he
    have heodd : e % 2 = 1 := by omega
    have helt : e < 2 ^ 64 := by omega
    have hehalf : e >>> 1 = 2 ^ 64 - 1 - r := by
      rw [Nat.shiftRight_eq_div_pow]; omega
    rw [henc, m_vm_decode_zigzag64]
    rw [Nat.mod_eq_of_lt helt, hehalf, if_pos heodd]
    have hxor2 : (2 ^ 64 - 1 - r) ^^^ (2 ^ 64 - 1) = 2 ^ 64 - 1 - (2 ^ 64 - 1 - r) :=
      xor_two_pow_sub_one 64 _ (by omega)
    rw [hxor2]
    have : 2 ^ 64 - 1 - (2 ^ 64 - 1 - r) = r := by omega
    rw [this, i64ofU64, Nat.mod_eq_of_lt hrhi]
    simp only [if_neg (by omega : ¬r < 2 ^ 63)]
    omega

/-- C9: the varint and zigzag codecs round-trip, at both widths, and the
unsigned decoder consumes exactly the encoded length. -/
theorem claim_C9_codec_roundtrip (n : Nat) (k : Int)
    (hn : n < 2 ^ 32) (hk1 : -2 ^ 31 ≤ k) (hk2 : k < 2 ^ 31)
    (n64 : Nat) (k64 : Int)
    (hn64 : n64 < 2 ^ 64) (hk641 : -2 ^ 63 ≤ k64) (hk642 : k64 < 2 ^ 63) :
    m_vm_decode_uvarint (m_vm_encode_uvarint n) 0 =
        some (n, (m_vm_encode_uvarint n).length) ∧
      m_vm_decode_zigzag (m_vm_encode_zigzag k) = k ∧
      m_vm_decode_uvarint64 (m_vm_encode_uvarint64 n64) 0 =
        some (n64, (m_vm_encode_uvarint64 n64).length) ∧
      m_vm_decode_zigzag64 (m_vm_encode_zigzag64 k64) = k64 :=
  ⟨uvarint_roundtrip n hn, zigzag_roundtrip k hk1 hk2,
   uvarint64_roundtrip n64 hn64, zigzag64_roundtrip k64 hk641 hk642⟩

/-- Witness for C9 at concrete inputs (u32 1000, i32 −127, u64 2⁴⁰, i64 −2⁴⁰). -/
theorem claim_C9_witness :
    m_vm_decode_uvarint (m_vm_encode_uvarint 1000) 0 =
        some (1000, (m_vm_encode_uvarint 1000).length) ∧
      m_vm_decode_zigzag (m_vm_encode_zigzag (-127)) = -127 ∧
      m_vm_decode_uvarint64 (m_vm_encode_uvarint64 (2 ^ 40)) 0 =
        some (2 ^ 40, (m_vm_encode_uvarint64 (2 ^ 40)).length) ∧
      m_vm_decode_zigzag64 (m_vm_encode_zigzag64 (-2 ^ 40)) = -2 ^ 40 :=
  claim_C9_codec_roundtrip 1000 (-127) (by norm_num) (by norm_num) (by norm_num)
    (2 ^ 40) (-2 ^ 40) (by norm_num) (by norm_num) (by norm_num)

/-! ## Opcode values (`include/m_vm.h`) -/

theorem stream_cons_iff (code : List Nat) (fuel next v : Nat) (depth : Int) :
    (∃ vs, (match decode_varint_stream code fuel next with
            | none => none
            | some vs => some (v :: vs)) = some vs ∧
      blocks_balanced vs depth = true) ↔
    (∃ vs', decode_varint_stream code fuel next = some vs' ∧
      blocks_balanced (v :: vs') depth = true) := by
  cases h : decode_varint_stream code fuel next <;> simp

theorem blocks_go_step_some (code : List Nat) (fuel pc : Nat) (depth : Int)
    (v next : Nat) (hpc : pc < code.length)
    (hdec : m_vm_decode_uvarint code pc = some (v, next)) :
    m_validate_blocks_go code (fuel + 1) pc depth =
      (if v = M_B then m_validate_blocks_go code fuel next (depth + 1)
       else if v = M_E then
         if depth ≤ 0 then
           Except.error (set_result false M_Fault.PC_OOB pc "Unmatched E")
         else m_validate_blocks_go code fuel next (depth - 1)
       else m_validate_blocks_go code fuel next depth) := by
  rw [m_validate_blocks_go, if_pos hpc, hdec]

theorem stream_step_some (code : List Nat) (fuel pc : Nat)
    (v next : Nat) (hpc : pc < code.length)
    (hdec : m_vm_decode_uvarint code pc = some (v, next)) :
    decode_varint_stream code (fuel + 1) pc =
      (match decode_varint_stream code fuel next with
       | none => none
       | some vs => some (v :: vs)) := by
  rw [decode_varint_stream, if_pos hpc, hdec]

theorem blocks_go_iff (code : List Nat) :
    ∀ fuel pc depth,
      (∃ d, m_validate_blocks_go code fuel pc depth = Except.ok d ∧ d = 0) ↔
      (∃ vs, decode_varint_stream code fuel pc = some vs ∧
        blocks_balanced vs depth = true) := by
  intro fuel
  induction fuel with
  | zero =>
    intro pc depth
    simp only [m_validate_blocks_go, decode_varint_stream]
    constructor
    · rintro ⟨d, hd, h0⟩
      injection hd with hd
      exact ⟨[], rfl, by simp [blocks_balanced]; omega⟩
    · rintro ⟨vs, hvs, hb⟩
      injection hvs with hvs
      subst hvs
      simp [blocks_balanced] at hb
      exact ⟨depth, rfl, by omega⟩
  | succ fuel ih =>
    intro pc depth
    by_cases hpc : pc < code.length
    · cases hdec : m_vm_decode_uvarint code pc with
      | none =>
        rw [m_validate_blocks_go, if_pos hpc, hdec, decode_varint_stream, if_pos hpc, hdec]
        simp
      | some vp =>
        obtain ⟨v, next⟩ := vp
        rw [blocks_go_step_some code fuel pc depth v next hpc hdec,
          stream_step_some code fuel pc v next hpc hdec]
        rw [stream_cons_iff]
        simp only [blocks_balanced, M_B, M_E]
        by_cases h10 : v = 10
        · subst h10
          simp only [if_pos (rfl : (10 : Nat) = 10)]
          exact ih next (depth + 1)
        · by_cases h11 : v = 11
          · subst h11
            simp only [if_neg (show ¬(11 : Nat) = 10 by norm_num),
              if_pos (rfl : (11 : Nat) = 11)]
            by_cases hd : depth ≤ 0
            · simp only [if_pos hd]
              simp
            · simp only [if_neg hd]
              exact ih next (depth - 1)
          · simp only [if_neg h10, if_neg h11]
            exact ih next depth
    · rw [m_validate_blocks_go, if_neg hpc, decode_varint_stream, if_neg hpc]
      constructor
      · rintro ⟨d, hd, h0⟩
        injection hd with hd
        exact ⟨[], rfl, by simp [blocks_balanced]; omega⟩
      · rintro ⟨vs, hvs, hb⟩
        injection hvs with hvs
        subst hvs
        simp [blocks_balanced] at hb
        exact ⟨depth, rfl, by omega⟩

/-- C4 (amended): `m_validate_blocks` decides balancedness of the values 10
(`B`) and 11 (`E`) over the FLAT varint stream of the program — every decoded
varint, operand or opcode, takes part in the depth count — so operand bytes
can change the result; it does not decide proper nesting of the B/E opcode
tokens. -/
theorem claim_C4_blocks_flat (code : List Nat) :
    (m_validate_blocks code = Except.ok ()) ↔
      m_validate_blocks_flat_spec code = true := by
  have hiff := blocks_go_iff code (code.length + 1) 0 0
  cases hgo : m_validate_blocks_go code (code.length + 1) 0 0 with
  | error r =>
    rw [hgo] at hiff
    simp only [m_validate_blocks, m_validate_blocks_flat_spec, hgo]
    constructor
    · rintro h; cases h
    · intro hspec
      cases hstream : decode_varint_stream code (code.length + 1) 0 with
      | none => rw [hstream] at hspec; cases hspec
      | some vs =>
        rw [hstream] at hspec
        obtain ⟨d, hd, _⟩ := hiff.mpr ⟨vs, hstream, hspec⟩
        cases hd
  | ok depth =>
    rw [hgo] at hiff
    simp only [m_validate_blocks, m_validate_blocks_flat_spec, hgo]
    by_cases hd0 : depth = 0
    · subst hd0
      obtain ⟨vs, hvs, hb⟩ := hiff.mp ⟨0, rfl, rfl⟩
      simp only [hvs]
      simp [hb]
    · rw [if_pos (by simpa using hd0)]
      constructor
      · rintro h; cases h
      · intro hspec
        cases hstream : decode_varint_stream code (code.length + 1) 0 with
        | none => rw [hstream] at hspec; cases hspec
        | some vs =>
          rw [hstream] at hspec
          obtain ⟨d, hd, hd0'⟩ := hiff.mpr ⟨vs, hstream, hspec⟩
          injection hd with hd
          omega

/-- Witness for C4's amended theorem at the concrete program `LIT 5, HALT`
(bytes `[30, 10, 82]`). -/
theorem claim_C4_witness :
    (m_validate_blocks [30, 10, 82] = Except.ok ()) ↔
      m_validate_blocks_flat_spec [30, 10, 82] = true :=
  claim_C4_blocks_flat [30, 10, 82]

/-- Counterexample to C4 as stated: the program `LIT 5, HALT`
(bytes `[30, 10, 82]`) tokenizes to the opcode tokens `LIT, HALT` — which
contain no `B`/`E` at all, hence are properly nested — yet
`m_validate_blocks` (and `m_validate`) rejects it, because the `LIT` operand
byte 10 is counted as a `B`. -/
theorem claim_C4_counterexample :
    (build_val_tokens [30, 10, 82]).map (fun ts => ts.map (·.op)) =
        some [M_LIT, M_HALT] ∧
      (∀ op ∈ [M_LIT, M_HALT], op ≠ M_B ∧ op ≠ M_E) ∧
      m_validate_blocks [30, 10, 82] =
        Except.error (set_result false M_Fault.PC_OOB 3 "Unmatched B/E") ∧
      (m_validate [30, 10, 82]).valid = false := by
  refine ⟨by decide, by decide, by rfl, by decide⟩

/-- C8 (amended): `m_validate_core_only` admits exactly the opcodes ≤ 99: a
program passing full validation passes `m_validate_core_only` iff every one
of its opcode token values is at most 99.  In particular the heap opcodes
`ALLOC` (200) and `FREE` (201) are rejected, not admitted. -/
theorem claim_C8_core_only (code : List Nat) (toks : List ValTok)
    (h : build_val_tokens code = some toks) :
    (m_validate_core_only code).valid = true ↔
      ((m_validate code).valid = true ∧ ∀ t ∈ toks, t.op ≤ 99) := by
  by_cases hv : (m_validate code).valid = true
  · cases hfind : toks.find? (fun t => t.op > 99) with
    | none =>
      have hscan : core_only_scan toks = none := by
        simp only [core_only_scan, hfind]
      have hL : m_validate_core_only code = m_validate code := by
        simp only [m_validate_core_only, h, hscan]
        rw [if_neg (by simp [hv])]
      rw [hL]
      constructor
      · intro hvv
        refine ⟨hvv, fun t ht => ?_⟩
        have hop := List.find?_eq_none.mp hfind t ht
        simpa using hop
      · rintro ⟨hvv, _⟩; exact hvv
    | some t =>
      have hscan : core_only_scan toks =
          some (set_result false M_Fault.UNKNOWN_OP t.start
            "Non-core opcode in core-only validation") := by
        simp only [core_only_scan, hfind]
      have hL : (m_validate_core_only code).valid = false := by
        simp only [m_validate_core_only, h, hscan]
        rw [if_neg (by simp [hv])]
        rfl
      rw [hL]
      have hp := List.find?_some hfind
      have hmem := List.mem_of_find?_eq_some hfind
      constructor
      · intro hfalse; simp at hfalse
      · rintro ⟨_, hall⟩
        have hle := hall t hmem
        simp at hp
        omega
  · have hL : m_validate_core_only code = m_validate code := by
      simp only [m_validate_core_only]
      rw [if_pos (by simpa using hv)]
    rw [hL]
    constructor
    · intro hvalid; exact absurd hvalid hv
    · rintro ⟨hvalid, _⟩; exact absurd hvalid hv

/-- Witness for C8's amended theorem at the single-token program `HALT`. -/
theorem claim_C8_witness :
    (m_validate_core_only [82]).valid = true ↔
      ((m_validate [82]).valid = true ∧
        ∀ t ∈ [({ op := 82, start := 0, stop := 1, u64 := 0, u32 := 0,
                  u32_b := 0, s32 := 0, mask := 0 } : ValTok)], t.op ≤ 99) :=
  claim_C8_core_only [82] _ (by decide)

/-- Counterexample to C8 as stated: `LIT 1, ALLOC, DRP, HALT`
(bytes `[30, 2, 200, 1, 65, 82]`) uses only opcodes in 0–99 plus
`ALLOC` (200), passes full validation, yet is rejected by
`m_validate_core_only`, which rejects every opcode above 99 — including the
heap opcodes 200/201 that the claim says it admits. -/
theorem claim_C8_counterexample :
    (build_val_tokens [30, 2, 200, 1, 65, 82]).map (fun ts => ts.map (·.op)) =
        some [M_LIT, M_ALLOC, M_DRP, M_HALT] ∧
      (∀ op ∈ [M_LIT, M_ALLOC, M_DRP, M_HALT],
        op ≤ 99 ∨ op = M_ALLOC ∨ op = M_FREE) ∧
      (m_validate [30, 2, 200, 1, 65, 82]).valid = true ∧
      (m_validate_core_only [30, 2, 200, 1, 65, 82]).valid = false := by
  refine ⟨by decide, by decide, by decide, by decide⟩

/-! ## Interpreter state (`m_vm.c`, revision 1, lines 753–2647)

The VM struct is embedded with C arrays as total functions `Nat → _` indexed
like the C arrays, plus the signed index registers (`sp`, `rp`, `frame_sp`)
as `Int` exactly as in the struct.  The heap is an explicit map from pointer
ids to heap objects (`malloc` is modelled by a fresh-id counter and never
fails); `AllocNode` chains are the `alloc_list`.  Host callbacks
(`io_write`/`io_read`/`sleep_ms`/`trace`) are a `Host` parameter; each
invocation of a callback is recorded in the ghost `io_log` field, which is
the observable transcript the capability claims are about.  `Float` values
can only enter the VM through the host `io_read` callback (no opcode builds
one); they are modelled by an integer surrogate carrying the value that
`to_int` extracts — no claim depends on float behaviour. -/

/-- C2 (amended): lowering preserves simulation only trivially — when pass 1
captures no `WH`/`FR` loop the program is returned unchanged, the loaded VM
equals the directly-attached VM, and every simulation of the two agrees.
When a loop IS captured the equality can fail (see the counterexample). -/
theorem claim_C2_lowering (code : List Nat)
    (h1 : 0 < code.length)
    (h2 : (lower_pass1_result code).map (fun st => st.loops.isEmpty) = some true)
    (hv : (build_token_map code).isSome = true) :
    lower_structured code = some code ∧
    ∀ host fuel, (vm_direct code).map (m_vm_simulate host fuel) =
      some (m_vm_simulate host fuel (m_vm_init code)) := by
  obtain ⟨st1, hst1, hempty⟩ := Option.map_eq_some'.mp h2
  obtain ⟨tmap, htmap⟩ := Option.isSome_iff_exists.mp hv
  obtain ⟨offs, b2t, cnt⟩ := tmap
  have hemp : st1.loops = [] := List.isEmpty_iff.mp hempty
  rcases htok : lower_tokenize code with _ | toks
  · rw [lower_pass1_result, htok] at hst1; exact absurd hst1 (by simp)
  · simp only [lower_pass1_result, htok] at hst1
    have hlow : lower_structured code = some code := by
      simp only [lower_structured, htok, hst1, hemp]
      rw [if_neg (by omega)]
      simp
    refine ⟨hlow, fun host fuel => ?_⟩
    have hinit : m_vm_init code = { m_vm_zero code with
        token_offsets := some offs
        byte_to_token := some b2t
        token_count := (cnt : Int) } := by
      simp only [m_vm_init, hlow, htmap]
      rfl
    simp only [vm_direct, htmap, hinit]
    rfl

/-- Witness for C2 at the loop-free program `LIT 2; HALT`. -/
theorem claim_C2_witness :
    0 < ([30, 4, 82] : List Nat).length ∧
    ((lower_pass1_result [30, 4, 82]).map (fun st => st.loops.isEmpty) = some true) ∧
    (build_token_map [30, 4, 82]).isSome = true ∧
    (lower_structured [30, 4, 82] = some [30, 4, 82] ∧
     ∀ host fuel, (vm_direct [30, 4, 82]).map (m_vm_simulate host fuel) =
       some (m_vm_simulate host fuel (m_vm_init [30, 4, 82]))) :=
  ⟨by decide, by rfl, by rfl,
   claim_C2_lowering [30, 4, 82] (by decide) (by rfl) (by rfl)⟩

/-- C2 (counterexample to the literal claim): `c2prog` contains no
`IOW`/`IOR`/`TRACE` token, both the direct and the lowered simulation
complete without fault well inside every budget, yet the direct run yields
result 1 while the lowered run yields 0: the interpreter's structured `WH`
handler runs the loop body exactly once (it has no back edge), while the
lowered `JZ`/`JMP` form iterates until the condition is falsy. -/
theorem claim_C2_counterexample :
    ((lower_tokenize c2prog).map (fun ts =>
        ts.all (fun t => !(t.op == M_IOW || t.op == M_IOR || t.op == M_TRACE)))) =
      some true ∧
    ((vm_direct c2prog).bind (m_vm_simulate hostNone 100)).map
        (fun r => (r.completed, r.fault, r.result, r.steps)) =
      some (true, M_Fault.NONE, 1, 12) ∧
    (m_vm_simulate hostNone 100 (m_vm_init c2prog)).map
        (fun r => (r.completed, r.fault, r.result, r.steps)) =
      some (true, M_Fault.NONE, 0, 24) :=
  ⟨by rfl, by rfl, by rfl⟩

/-- C10: both entry points start from a fresh session.  The prologue of
`m_vm_run` (mirrored by `m_vm_run_init`) empties the data, return and frame
stacks, zeroes all locals and globals, clears the fault, resets steps and
gas to 0, clears `authorized` and every capability bit, and `m_vm_run` is
exactly that prologue followed by the step loop; `m_vm_simulate` resets via
`m_vm_reset` (which additionally zeroes the stack arrays themselves) before
its recording loop. -/
theorem claim_C10_fresh_session (v : M_VM) (host : Host) (fuel : Nat) :
    ((m_vm_run_init v).pc = 0 ∧ (m_vm_run_init v).sp = -1 ∧
     (m_vm_run_init v).rp = -1 ∧ (m_vm_run_init v).frame_sp = -1 ∧
     (m_vm_run_init v).locals = (fun _ => MValue.int 0) ∧
     (m_vm_run_init v).globals = (fun _ => MValue.int 0) ∧
     (m_vm_run_init v).fault = M_Fault.NONE ∧
     (m_vm_run_init v).steps = 0 ∧ (m_vm_run_init v).gas = 0 ∧
     (m_vm_run_init v).authorized = false ∧
     (m_vm_run_init v).caps = caps_clear) ∧
    m_vm_run host fuel v = m_vm_run_loop host fuel (m_vm_run_init v) ∧
    ((m_vm_reset v).pc = 0 ∧ (m_vm_reset v).sp = -1 ∧
     (m_vm_reset v).rp = -1 ∧ (m_vm_reset v).frame_sp = -1 ∧
     (m_vm_reset v).stack = (fun _ => MValue.int 0) ∧
     (m_vm_reset v).ret_stack = (fun _ => 0) ∧
     (m_vm_reset v).locals = (fun _ => MValue.int 0) ∧
     (m_vm_reset v).globals = (fun _ => MValue.int 0) ∧
     (m_vm_reset v).fault = M_Fault.NONE ∧
     (m_vm_reset v).steps = 0 ∧ (m_vm_reset v).gas = 0 ∧
     (m_vm_reset v).authorized = false ∧
     (m_vm_reset v).caps = caps_clear) ∧
    m_vm_simulate host fuel v =
      m_vm_simulate_loop host fuel { m_vm_reset v with running := true }
        sim_result_init :=
  ⟨⟨rfl, rfl, rfl, rfl, rfl, rfl, rfl, rfl, rfl, rfl, rfl⟩, rfl,
   ⟨rfl, rfl, rfl, rfl, rfl, rfl, rfl, rfl, rfl, rfl, rfl, rfl, rfl⟩, rfl⟩

/-! ## Claim C7: the step limit on the self-loop `JMP -1` -/

theorem c7run0_eq : m_vm_run_init c7vm = c7run0 := rfl

theorem c7_first : m_vm_step hostNone c7run0 = some (c7s 1) := rfl

theorem c7_step (k : Nat) (h : k < 1000) :
    m_vm_step hostNone (c7s k) = some (c7s (k + 1)) := by
  have hdec1 : m_vm_decode_uvarint [100, 1] 0 = some (100, 1) := rfl
  have hdec2 : m_vm_decode_svarint [100, 1] 1 = some (-1, 2) := rfl
  unfold m_vm_step
  rw [if_neg (not_not_intro (show (c7s k).running = true from rfl))]
  rw [if_neg (show ¬((c7s k).pc < 0 ∨ (c7s k).pc ≥ (c7s k).code_len) from
    fun hc => absurd (show ((0 : Int) < 0 ∨ (0 : Int) ≥ 2) from hc) (by decide))]
  dsimp only []
  split
  · next hc => exact absurd (show (1000 : Nat) > 0 ∧ k + 1 > 1000 from hc) (by omega)
  · simp only [c7s, m_vm_step_exec, hdec1, hdec2, vm_dispatch, h_jmp, vm_jump_to, Int.toNat_zero]
    norm_num
    norm_num [TABLE_has, SET_FAULT, hdec1, hdec2, h_jmp, vm_jump_to,
      M_B, M_E, M_IF, M_WH, M_FR, M_FN, M_RT, M_CL, M_PH, M_LIT, M_V, M_LET,
      M_SET, M_LT, M_GT, M_LE, M_GE, M_EQ, M_ADD, M_SUB, M_MUL, M_DIV, M_AND,
      M_OR, M_XOR, M_SHL, M_SHR, M_LEN, M_GET, M_PUT, M_SWP, M_DUP, M_DRP,
      M_ROT, M_GET_ALIAS, M_PUT_ALIAS, M_SWP_ALIAS, M_IOW, M_IOR, M_GTWAY,
      M_WAIT, M_HALT, M_TRACE, M_GC, M_BP, M_STEP, M_JMP, M_JZ, M_JNZ, M_MOD,
      M_NEG, M_NOT, M_NEQ, M_NEWARR, M_IDX, M_STO, M_DO, M_DWHL, M_WHIL,
      M_ALLOC, M_FREE, Int.toNat_one]
    simp

theorem run_loop_cont (host : Host) (fuel : Nat) (v v2 : M_VM)
    (h1 : v.running = true) (h1b : v.pc < v.code_len)
    (h2 : m_vm_step host v = some v2) (h3 : v2.running = true) :
    m_vm_run_loop host (fuel + 1) v = m_vm_run_loop host fuel v2 := by
  simp only [m_vm_run_loop]
  rw [if_pos ⟨h1, h1b⟩, h2]
  dsimp only []
  rw [if_pos h3]

theorem c7_loop : ∀ j k, k + j = 1000 →
    m_vm_run_loop hostNone (j + 2) (c7s k) =
      some (SET_FAULT (c7s 1001) M_Fault.STEP_LIMIT) := by
  intro j
  induction j with
  | zero =>
    intro k hk
    have hk1000 : k = 1000 := by omega
    subst hk1000
    rfl
  | succ j ih =>
    intro k hk
    have hs := c7_step k (by omega)
    show m_vm_run_loop hostNone ((j + 2) + 1) (c7s k) = _
    rw [run_loop_cont hostNone (j + 2) (c7s k) (c7s (k + 1)) rfl
      (show (0 : Int) < 2 by decide) hs rfl]
    exact ih (k + 1) (by omega)

/-- C7: running the single-token program `JMP -1` (bytes `100, 1`) with
`step_limit = 1000` halts with fault `StepLimit`; the final `steps` counter
is 1001 — the violation is detected inside the same step that increments
`steps` past the limit, so the observable count is off by one. -/
theorem claim_C7_step_limit :
    ∃ vf, m_vm_run hostNone 1002 c7vm = some vf ∧
      vf.fault = M_Fault.STEP_LIMIT ∧ vf.steps = 1001 ∧ vf.running = false := by
  refine ⟨SET_FAULT (c7s 1001) M_Fault.STEP_LIMIT, ?_, rfl, rfl, rfl⟩
  have h0 : m_vm_run hostNone 1002 c7vm =
      m_vm_run_loop hostNone 1002 (m_vm_run_init c7vm) := rfl
  rw [h0, c7run0_eq]
  show m_vm_run_loop hostNone (1001 + 1) c7run0 = _
  rw [run_loop_cont hostNone 1001 c7run0 (c7s 1) rfl (by decide) c7_first rfl]
  show m_vm_run_loop hostNone (999 + 2) (c7s 1) = _
  exact c7_loop 999 1 (by omega)

/-! ## Claim C1: capability gating of the I/O handlers -/

/-- C1 (amended): the host callbacks are gated on the capability bit — with
bit `dev` clear, `h_iow`/`h_ior` never extend the I/O event log, and they
trap `Unauthorized` exactly when their stack precondition (checked BEFORE
the capability, unlike what the claim says) passes.  The claim's own
example, in the source's operand form `LIT 1; LIT 5; IOW 5; HALT` with no
`GTWAY`, halts `Unauthorized` at the `IOW` token (byte 4) with no callback
invoked even under a fully-equipped host. -/
theorem claim_C1_io_caps (host : Host) (v : M_VM) (dev p : Nat)
    (hdec : m_vm_decode_uvarint v.code v.pc.toNat = some (dev, p))
    (hcaps : caps_has v dev = false) :
    ((h_iow host v).io_log = v.io_log ∧ (h_ior host v).io_log = v.io_log) ∧
    (¬v.sp + 1 < 1 → h_iow host v = SET_FAULT v M_Fault.UNAUTHORIZED) ∧
    (¬(v.sp + 1 ≥ v.stack_limit ∨ v.sp + 1 ≥ (STACK_SIZE : Int)) →
      h_ior host v = SET_FAULT v M_Fault.UNAUTHORIZED) ∧
    (∃ vf, m_vm_run hostFull 10 (m_vm_init [30, 2, 30, 10, 70, 5, 82]) = some vf ∧
      vf.fault = M_Fault.UNAUTHORIZED ∧ vf.last_pc = 4 ∧ vf.io_log = []) := by
  have hio : h_iow host v = (if v.sp + 1 < 1 then SET_FAULT v M_Fault.STACK_UNDERFLOW
      else SET_FAULT v M_Fault.UNAUTHORIZED) := by
    simp only [h_iow, hdec, hcaps]
    simp
  have hir : h_ior host v =
      (if v.sp + 1 ≥ v.stack_limit ∨ v.sp + 1 ≥ (STACK_SIZE : Int) then
        SET_FAULT v M_Fault.STACK_OVERFLOW
      else SET_FAULT v M_Fault.UNAUTHORIZED) := by
    simp only [h_ior, hdec, hcaps]
    simp
  refine ⟨⟨?_, ?_⟩, ?_, ?_, ⟨_, rfl, rfl, rfl, rfl⟩⟩
  · rw [hio]; by_cases hsp : v.sp + 1 < 1 <;> simp [hsp, SET_FAULT]
  · rw [hir]; by_cases hsp : v.sp + 1 ≥ v.stack_limit ∨ v.sp + 1 ≥ (STACK_SIZE : Int) <;>
      simp [hsp, SET_FAULT]
  · intro hsp; rw [hio, if_neg hsp]
  · intro hsp; rw [hir, if_neg hsp]

/-- Witness for C1 at a concrete decoding state. -/
theorem claim_C1_witness :
    (m_vm_decode_uvarint c1wit.code c1wit.pc.toNat = some (5, 2) ∧
     caps_has c1wit 5 = false) ∧
    ((h_iow hostNone c1wit).io_log = c1wit.io_log ∧
     (h_ior hostNone c1wit).io_log = c1wit.io_log) :=
  ⟨⟨rfl, rfl⟩, (claim_C1_io_caps hostNone c1wit 5 2 rfl rfl).1⟩

/-- C1 (counterexample to the literal claim): with the capability bit clear
a blocked I/O step need not trap `Unauthorized` — the stack check comes
first.  `JMP +1; LIT 1; IOW 5; HALT` jumps over the push, so `IOW` runs on
an empty stack with bit 5 clear and halts `StackUnderflow` instead (still
without invoking any callback). -/
theorem claim_C1_counterexample :
    ∃ vf, m_vm_run hostFull 10 (m_vm_init [100, 2, 30, 2, 70, 5, 82]) = some vf ∧
      vf.fault = M_Fault.STACK_UNDERFLOW ∧ vf.caps 5 = false ∧ vf.io_log = [] :=
  ⟨_, rfl, rfl, rfl, rfl⟩

/-! ## Claim C5: (non-)atomicity of traps -/

/-- C5 (amended): traps are NOT atomic for the divide/modulo handlers —
they pop the divisor before the zero check, so a `DivByZero`/`ModByZero`
trap leaves `sp` exactly one below its pre-opcode value; the popped-state
fault leaves the stack array, locals, globals, return and frame stacks
untouched. -/
theorem claim_C5_div_mod (v : M_VM) (h2 : ¬v.sp + 1 < 2)
    (hb : to_int (vmTop v) = 0) :
    (h_div v = SET_FAULT (vmPopped v) M_Fault.DIV_BY_ZERO ∧
     h_mod v = SET_FAULT (vmPopped v) M_Fault.MOD_BY_ZERO) ∧
    (vmPopped v).sp = v.sp - 1 ∧ (vmPopped v).stack = v.stack ∧
    (vmPopped v).locals = v.locals ∧ (vmPopped v).globals = v.globals ∧
    (vmPopped v).rp = v.rp ∧ (vmPopped v).frame_sp = v.frame_sp := by
  refine ⟨⟨?_, ?_⟩, rfl, rfl, rfl, rfl, rfl, rfl⟩
  · simp only [h_div, if_neg h2, hb]
    simp
  · simp only [h_mod, if_neg h2, hb]
    simp

/-- Witness for C5 at a concrete two-entry stack. -/
theorem claim_C5_witness :
    (¬c5wit.sp + 1 < 2 ∧ to_int (vmTop c5wit) = 0) ∧
    (h_div c5wit = SET_FAULT (vmPopped c5wit) M_Fault.DIV_BY_ZERO ∧
     h_mod c5wit = SET_FAULT (vmPopped c5wit) M_Fault.MOD_BY_ZERO) :=
  ⟨⟨by decide, rfl⟩, (claim_C5_div_mod c5wit (by decide) rfl).1⟩

/-- C5 (counterexample to the literal claim): running
`LIT 10; LIT 0; DIV; HALT`, the state before the `DIV` step has `sp = 1`,
and the `DivByZero` trap leaves `sp = 0` — the data stack pointer is NOT as
it was before the opcode began. -/
theorem claim_C5_counterexample :
    ∃ v2 v3,
      (m_vm_step hostNone c5v0).bind (m_vm_step hostNone) = some v2 ∧
      v2.fault = M_Fault.NONE ∧ v2.sp = 1 ∧
      m_vm_step hostNone v2 = some v3 ∧
      v3.fault = M_Fault.DIV_BY_ZERO ∧ v3.sp = 0 :=
  ⟨_, _, rfl, rfl, rfl, rfl, rfl, rfl⟩

/-! ## Claim C3: the IF handler's else-branch scan -/

theorem dec_loop_pos_bounds (w : Nat) (code : List Nat) (len : Nat) :
    ∀ fuel p res shift val next,
      dec_uvarint_loop w code len fuel p res shift = some (val, next) →
      p < next ∧ next ≤ len := by
  intro fuel
  induction fuel with
  | zero => intro p res shift val next h; exact absurd h (by simp [dec_uvarint_loop])
  | succ fuel ih =>
    intro p res shift val next h
    rw [dec_uvarint_loop] at h
    by_cases hp : p < len
    · rw [if_pos hp] at h
      by_cases hb : code.getD p 0 % 256 < 128
      · rw [if_pos hb] at h
        have h2 : p + 1 = next := congrArg (fun r => ((r.getD (0, 0)).2 : Nat)) h
        omega
      · rw [if_neg hb] at h
        by_cases hs : shift + 7 ≥ w
        · rw [if_pos hs] at h; exact absurd h (by simp)
        · rw [if_neg hs] at h
          have := ih (p + 1) _ _ val next h
          omega
    · rw [if_neg hp] at h; exact absurd h (by simp)

theorem dec_bounds (code : List Nat) (p val next : Nat)
    (h : m_vm_decode_uvarint code p = some (val, next)) :
    p < next ∧ next ≤ code.length :=
  dec_loop_pos_bounds 32 code code.length (code.length + 1) p 0 0 val next h

theorem varint_cover_le (code : List Nat) :
    ∀ ts p q, varint_cover code p ts q = true → p + ts.length ≤ q ∧ q ≤ code.length ∨ ts = [] ∧ p = q := by
  intro ts
  induction ts with
  | nil => intro p q h; right; simp [varint_cover] at h; exact ⟨rfl, h⟩
  | cons t ts ih =>
    intro p q h
    left
    rw [varint_cover] at h
    rcases hdec : m_vm_decode_uvarint code p with _ | ⟨v, next⟩
    · rw [hdec] at h; simp at h
    · rw [hdec] at h
      simp only [Bool.and_eq_true, beq_iff_eq] at h
      obtain ⟨hv, hcov⟩ := h
      have hb := dec_bounds code p v next hdec
      rcases ih next q hcov with ⟨h1, h2⟩ | ⟨hts, hpq⟩
      · simp only [List.length_cons]; omega
      · subst hts; subst hpq; simp only [List.length_cons, List.length_nil]; omega

theorem scan_cover (code : List Nat) :
    ∀ ts fuel p d pE,
      varint_cover code p ts pE = true →
      d > 0 →
      depth_runs ts d = some 1 →
      m_vm_decode_uvarint code pE = some (11, pE + 1) →
      ts.length + 1 ≤ fuel →
      skip_block_scan code code.length fuel p d = some pE := by
  intro ts
  induction ts with
  | nil =>
    intro fuel p d pE hcov hd hdep hE hfuel
    simp only [varint_cover, beq_iff_eq] at hcov
    subst hcov
    have hd1 : d = 1 := by
      simp only [depth_runs] at hdep
      injection hdep
    subst hd1
    obtain ⟨fuel, rfl⟩ : ∃ f, fuel = f + 1 := ⟨fuel - 1, by omega⟩
    have hlt : p < code.length := ((dec_bounds code p 11 (p + 1) hE).2).trans_lt' (by omega)
    rw [skip_block_scan, if_pos ⟨by omega, hlt⟩, hE]
    norm_num [M_B, M_E]
  | cons t ts ih =>
    intro fuel p d pE hcov hd hdep hE hfuel
    rw [varint_cover] at hcov
    rcases hdec : m_vm_decode_uvarint code p with _ | ⟨v, next⟩
    · rw [hdec] at hcov; simp at hcov
    · rw [hdec] at hcov
      simp only [Bool.and_eq_true, beq_iff_eq] at hcov
      obtain ⟨hv, hcov⟩ := hcov
      subst hv
      simp only [depth_runs] at hdep
      by_cases hpos : (if v = M_B then d + 1 else if v = M_E then d - 1 else d) > 0
      · rw [if_pos hpos] at hdep
        obtain ⟨fuel, rfl⟩ : ∃ f, fuel = f + 1 := ⟨fuel - 1, by omega⟩
        have hlt : p < code.length := by
          have := dec_bounds code p v next hdec
          omega
        rw [skip_block_scan, if_pos ⟨hd, hlt⟩, hdec]
        dsimp only []
        rw [if_pos hpos]
        exact ih fuel next _ pE hcov hpos hdep hE (by simp at hfuel ⊢; omega)
      · rw [if_neg hpos] at hdep
        exact absurd hdep (by simp)

/-- C3 (amended): `h_if` pops the condition; a truthy condition continues at
the first token inside the then-block (the handler skips one varint — the
then-block's opening `B`, not the `IF` opcode, which `m_vm_step` already
consumed).  A falsy condition scans nested `B`/`E` flat over VARINTS — so
only under the hypothesis that no varint value 10/11 inside the then-block
is an operand (`varint_cover`/`depth_runs` below) does it stop exactly at
the then-block's closing `E`; it then steps one byte past the `E` and skips
the else-block's `B`, landing on the first token inside the else-block. -/
theorem claim_C3_if (v : M_VM) (ts : List Nat) (pB pE : Nat)
    (hsp : ¬v.sp + 1 < 1)
    (hpc : v.pc = (pB : Int))
    (hB : m_vm_decode_uvarint v.code pB = some (10, pB + 1))
    (hcov : varint_cover v.code (pB + 1) ts pE = true)
    (hdep : depth_runs ts 1 = some 1)
    (hE : m_vm_decode_uvarint v.code pE = some (11, pE + 1))
    (helse : m_vm_decode_uvarint v.code (pE + 1) = some (10, pE + 2)) :
    (to_bool (vmTop v) = true →
      h_if v = some { vmPopped v with pc := ((pB + 1 : Nat) : Int) }) ∧
    (to_bool (vmTop v) = false →
      h_if v = some { vmPopped v with pc := ((pE + 2 : Nat) : Int) }) := by
  have hskip : skip_uvarint v.code v.pc = ((pB + 1 : Nat) : Int) := by
    rw [skip_uvarint, hpc]
    simp only [Int.toNat_natCast, hB]
  constructor
  · intro ht
    rw [h_if, if_neg hsp]
    dsimp only []
    rw [if_neg (not_not_intro (show to_bool (vmTop v) = true from ht))]
    rw [show (vmPopped v).code = v.code from rfl, show (vmPopped v).pc = v.pc from rfl,
      hskip]
  · intro hf
    rw [h_if, if_neg hsp]
    dsimp only []
    rw [show (vmPopped v).code = v.code from rfl, show (vmPopped v).pc = v.pc from rfl,
      hskip]
    rw [if_pos (show ¬to_bool (vmTop v) = true by simp [hf])]
    have hfuel : ts.length + 1 ≤ v.code.length + 1 := by
      rcases varint_cover_le v.code ts (pB + 1) pE hcov with ⟨h1, h2⟩ | ⟨hts, _⟩
      · omega
      · subst hts; simp
    have hscan := scan_cover v.code ts (v.code.length + 1) (pB + 1) 1 pE hcov
      (by norm_num) hdep hE hfuel
    rw [show ((pB + 1 : Nat) : Int).toNat = pB + 1 from Int.toNat_natCast _, hscan]
    have htn : ((pE : Int) + 1).toNat = pE + 1 := by omega
    dsimp only []
    simp only [skip_uvarint, htn, helse]

/-- Witness for C3 at `LIT 0; IF; B; LIT 2; E; B; LIT 7; E; HALT`. -/
theorem claim_C3_witness :
    (varint_cover c3wit.code 4 [30, 4] 6 = true ∧ depth_runs [30, 4] 1 = some 1) ∧
    (to_bool (vmTop c3wit) = false →
      h_if c3wit = some { vmPopped c3wit with pc := ((8 : Nat) : Int) }) :=
  ⟨⟨rfl, rfl⟩, (claim_C3_if c3wit [30, 4] 3 6 (by decide) rfl rfl rfl rfl rfl rfl).2⟩

/-- C3 (counterexample to the literal claim): in
`LIT 0; IF; B; LIT 5; E; B; LIT 7; E; HALT` the then-block's `LIT 5` has
operand byte 10 (`zigzag 5`), which the flat scan miscounts as a `B`: the
falsy `IF` scans past the whole program (final `pc = 13`, beyond the code)
instead of landing on the else-block's `LIT 7` at byte 8, and the run ends
with an empty stack — the else-branch never executes. -/
theorem claim_C3_counterexample :
    h_if c3cex = some { vmPopped c3cex with pc := 13 } ∧
    (∃ r, m_vm_simulate hostNone 100
        (m_vm_init [30, 0, 12, 10, 30, 10, 11, 10, 30, 14, 11, 82]) = some r ∧
      r.fault = M_Fault.NONE ∧ r.sp = -1) :=
  ⟨rfl, ⟨_, rfl, rfl, rfl⟩⟩

/-! ## Claim C6: the stack-pointer bounds invariant -/

